import Mathlib

/-!
The librdmacm convenience verbs: a shallow embedding.

The inline helpers of `include/rdma/rdma_verbs.h` and the helpers
`get_rdma_addr`, `size_str`, `do_poll`, `format_buf` and `verify_buf` of
`examples/common.c`
are embedded as Lean functions.

* Pointers are natural numbers (`0` is `NULL`) below `2 ^ 64`; a pointer sum is
  taken modulo `2 ^ 64`, as the compiled code computes it.
* `int` values are integers; the helpers never do arithmetic on them.
* The verbs library (`ibv_*`) is outside the repository.  It is a parameter
  `Verbs σ`: every library call is a function on the process state `Proc σ`,
  which holds `errno` and the state `σ` of the device.
* Every library call is recorded, with what it returned, in a trace.
* `assert` is enabled (no `NDEBUG`): a failed assertion ends the run as `aborted`.
* The retrieval loop `do { ... } while (1)` takes a bound on the number of
  iterations; a run that uses the bound up is `running`.
-/

namespace Rdma

/-! ## Data model -/

/-- Work completion as the retriever hands it to the caller: the echoed request
identifier, the status and the byte count. -/
structure ibv_wc where
  wr_id : Nat
  status : Nat
  byte_len : Nat
deriving DecidableEq, Repr

/-- Scatter-gather entry `struct ibv_sge`: `uint64_t addr`, `uint32_t length`,
`uint32_t lkey`.  The fields hold values of these widths: every entry built
from a `size_t` length stores it modulo `2 ^ 32` (`sge_entry` and the
single-buffer helpers). -/
structure ibv_sge where
  addr : Nat
  length : Nat
  lkey : Nat
deriving DecidableEq, Repr

/-- Registered memory region `struct ibv_mr`, the fields the helpers read. -/
structure ibv_mr where
  addr : Nat
  length : Nat
  lkey : Nat
deriving DecidableEq, Repr

/-- Receive work request `struct ibv_recv_wr`; `sg_list` is the array the
pointer designates, `next` is a pointer. -/
structure ibv_recv_wr where
  wr_id : Nat
  next : Nat
  sg_list : List ibv_sge
  num_sge : Int
deriving DecidableEq, Repr

/-- Opcodes the helpers use. -/
inductive ibv_wr_opcode where
  | IBV_WR_SEND
  | IBV_WR_RDMA_READ
  | IBV_WR_RDMA_WRITE
deriving DecidableEq, Repr

/-- The union `wr` of `struct ibv_send_wr`: the member a helper fills in, or
`unset` when it fills in none. -/
inductive send_wr_union where
  | unset
  | rdma (remote_addr : Nat) (rkey : Nat)
  | ud (ah : Nat) (remote_qpn : Nat) (remote_qkey : Nat)
deriving DecidableEq, Repr

/-- Send work request `struct ibv_send_wr`, the fields the helpers set. -/
structure ibv_send_wr where
  wr_id : Nat
  next : Nat
  sg_list : List ibv_sge
  num_sge : Int
  opcode : ibv_wr_opcode
  send_flags : Int
  wr : send_wr_union
deriving DecidableEq, Repr

/-- Communication identifier `struct rdma_cm_id`: `addr` is the address of the
structure (what the pointer `id` is), the rest are the pointer fields read by
the helpers. -/
structure rdma_cm_id where
  addr : Nat
  pd : Nat
  qp : Nat
  srq : Nat
  send_cq : Nat
  send_cq_channel : Nat
  recv_cq : Nat
  recv_cq_channel : Nat
deriving DecidableEq, Repr

/-- Process state seen by a library call: `errno` and the device state. -/
structure Proc (σ : Type) where
  errno : Int
  env : σ
deriving DecidableEq, Repr

/-- The verbs library the helpers call into.  `ibv_poll_cq cq num_entries wc`
returns its result and the contents of `wc` afterwards; `ibv_get_cq_event`
returns its result with the queue and the context it delivered. -/
structure Verbs (σ : Type) where
  ibv_poll_cq : Nat → Int → ibv_wc → Proc σ → Int × ibv_wc × Proc σ
  ibv_req_notify_cq : Nat → Int → Proc σ → Int × Proc σ
  ibv_get_cq_event : Nat → Proc σ → Int × Nat × Nat × Proc σ
  ibv_ack_cq_events : Nat → Nat → Proc σ → Proc σ
  ibv_post_send : Nat → ibv_send_wr → Proc σ → Int × Proc σ
  ibv_post_recv : Nat → ibv_recv_wr → Proc σ → Int × Proc σ
  ibv_post_srq_recv : Nat → ibv_recv_wr → Proc σ → Int × Proc σ
  ibv_dereg_mr : ibv_mr → Proc σ → Int × Proc σ
  /-- Modelled from the spec: the fixed well-known queue key of unreliable
  datagram sends; `rdma_cma.h`, which defines it, is not among the sources. -/
  RDMA_UDP_QKEY : Nat

/-- One library call with its arguments and what it returned. -/
inductive Event where
  | poll_cq (cq : Nat) (num_entries : Int) (ret : Int)
  | req_notify_cq (cq : Nat) (solicited_only : Int) (ret : Int)
  | get_cq_event (channel : Nat) (ret : Int) (cq : Nat) (context : Nat)
  | ack_cq_events (cq : Nat) (nevents : Nat)
  | post_send (qp : Nat) (wr : ibv_send_wr) (ret : Int)
  | post_recv (qp : Nat) (wr : ibv_recv_wr) (ret : Int)
  | post_srq_recv (srq : Nat) (wr : ibv_recv_wr) (ret : Int)
  | dereg_mr (mr : ibv_mr) (ret : Int)
deriving DecidableEq, Repr

/-- Process state together with the library calls made so far. -/
structure Run (σ : Type) where
  proc : Proc σ
  trace : List Event
deriving DecidableEq, Repr

/-- How a helper ends: it returns a value, an assertion fails, or the bound on
loop iterations is used up with the loop still going. -/
inductive Outcome where
  | returned (ret : Int)
  | aborted
  | running
deriving DecidableEq, Repr

/-- Result of an `int` helper that cannot abort. -/
structure Ret (σ : Type) where
  ret : Int
  st : Run σ
deriving DecidableEq, Repr

/-- Result of a recorded `ibv_poll_cq`. -/
structure PollRet (σ : Type) where
  ret : Int
  wc : ibv_wc
  st : Run σ

/-- Result of a recorded `ibv_get_cq_event`. -/
structure WaitRet (σ : Type) where
  ret : Int
  cq : Nat
  context : Nat
  st : Run σ

/-- Result of a completion retriever. -/
structure CompRet (σ : Type) where
  out : Outcome
  wc : ibv_wc
  st : Run σ
deriving DecidableEq, Repr

/-- Result of a helper that may abort. -/
structure PostRet (σ : Type) where
  out : Outcome
  st : Run σ
deriving DecidableEq, Repr

/-! ## Recorded library calls -/

variable {σ : Type}

/-- Call `ibv_poll_cq` and record it. -/
def call_poll_cq (V : Verbs σ) (cq : Nat) (n : Int) (wc : ibv_wc) (s : Run σ) : PollRet σ :=
  let r := V.ibv_poll_cq cq n wc s.proc
  ⟨r.1, r.2.1, ⟨r.2.2, s.trace ++ [Event.poll_cq cq n r.1]⟩⟩

/-- Call `ibv_req_notify_cq` and record it. -/
def call_req_notify_cq (V : Verbs σ) (cq : Nat) (solicited_only : Int) (s : Run σ) : Ret σ :=
  let r := V.ibv_req_notify_cq cq solicited_only s.proc
  ⟨r.1, ⟨r.2, s.trace ++ [Event.req_notify_cq cq solicited_only r.1]⟩⟩

/-- Call `ibv_get_cq_event` and record it. -/
def call_get_cq_event (V : Verbs σ) (channel : Nat) (s : Run σ) : WaitRet σ :=
  let r := V.ibv_get_cq_event channel s.proc
  ⟨r.1, r.2.1, r.2.2.1, ⟨r.2.2.2, s.trace ++ [Event.get_cq_event channel r.1 r.2.1 r.2.2.1]⟩⟩

/-- Call `ibv_ack_cq_events` and record it. -/
def call_ack_cq_events (V : Verbs σ) (cq : Nat) (nevents : Nat) (s : Run σ) : Run σ :=
  ⟨V.ibv_ack_cq_events cq nevents s.proc, s.trace ++ [Event.ack_cq_events cq nevents]⟩

/-- Call `ibv_post_send` and record it. -/
def call_post_send (V : Verbs σ) (qp : Nat) (wr : ibv_send_wr) (s : Run σ) : Ret σ :=
  let r := V.ibv_post_send qp wr s.proc
  ⟨r.1, ⟨r.2, s.trace ++ [Event.post_send qp wr r.1]⟩⟩

/-- Call `ibv_post_recv` and record it. -/
def call_post_recv (V : Verbs σ) (qp : Nat) (wr : ibv_recv_wr) (s : Run σ) : Ret σ :=
  let r := V.ibv_post_recv qp wr s.proc
  ⟨r.1, ⟨r.2, s.trace ++ [Event.post_recv qp wr r.1]⟩⟩

/-- Call `ibv_post_srq_recv` and record it. -/
def call_post_srq_recv (V : Verbs σ) (srq : Nat) (wr : ibv_recv_wr) (s : Run σ) : Ret σ :=
  let r := V.ibv_post_srq_recv srq wr s.proc
  ⟨r.1, ⟨r.2, s.trace ++ [Event.post_srq_recv srq wr r.1]⟩⟩

/-- Call `ibv_dereg_mr` and record it. -/
def call_dereg_mr (V : Verbs σ) (mr : ibv_mr) (s : Run σ) : Ret σ :=
  let r := V.ibv_dereg_mr mr s.proc
  ⟨r.1, ⟨r.2, s.trace ++ [Event.dereg_mr mr r.1]⟩⟩

/-! ## `rdma_verbs.h` -/

/-- The helper `rdma_seterrno`: `if (ret) { errno = ret; ret = -1; } return ret;` -/
def rdma_seterrno (ret : Int) (s : Run σ) : Ret σ :=
  if ret ≠ 0 then ⟨-1, ⟨⟨ret, s.proc.env⟩, s.trace⟩⟩ else ⟨ret, s⟩

/-- The helper `rdma_dereg_mr`. -/
def rdma_dereg_mr (V : Verbs σ) (mr : ibv_mr) (s : Run σ) : Ret σ :=
  let r := call_dereg_mr V mr s
  rdma_seterrno r.ret r.st

/-- The helper `rdma_post_recvv`. -/
def rdma_post_recvv (V : Verbs σ) (id : rdma_cm_id) (context : Nat) (sgl : List ibv_sge)
    (nsge : Int) (s : Run σ) : Ret σ :=
  let wr : ibv_recv_wr := ⟨context, 0, sgl, nsge⟩
  if id.srq ≠ 0 then
    let r := call_post_srq_recv V id.srq wr s
    rdma_seterrno r.ret r.st
  else
    let r := call_post_recv V id.qp wr s
    rdma_seterrno r.ret r.st

/-- The helper `rdma_post_sendv`. -/
def rdma_post_sendv (V : Verbs σ) (id : rdma_cm_id) (context : Nat) (sgl : List ibv_sge)
    (nsge : Int) (flags : Int) (s : Run σ) : Ret σ :=
  let wr : ibv_send_wr :=
    ⟨context, 0, sgl, nsge, ibv_wr_opcode.IBV_WR_SEND, flags, send_wr_union.unset⟩
  let r := call_post_send V id.qp wr s
  rdma_seterrno r.ret r.st

/-- The helper `rdma_post_readv`. -/
def rdma_post_readv (V : Verbs σ) (id : rdma_cm_id) (context : Nat) (sgl : List ibv_sge)
    (nsge : Int) (flags : Int) (remote_addr : Nat) (rkey : Nat) (s : Run σ) : Ret σ :=
  let wr : ibv_send_wr :=
    ⟨context, 0, sgl, nsge, ibv_wr_opcode.IBV_WR_RDMA_READ, flags,
      send_wr_union.rdma remote_addr rkey⟩
  let r := call_post_send V id.qp wr s
  rdma_seterrno r.ret r.st

/-- The helper `rdma_post_writev`. -/
def rdma_post_writev (V : Verbs σ) (id : rdma_cm_id) (context : Nat) (sgl : List ibv_sge)
    (nsge : Int) (flags : Int) (remote_addr : Nat) (rkey : Nat) (s : Run σ) : Ret σ :=
  let wr : ibv_send_wr :=
    ⟨context, 0, sgl, nsge, ibv_wr_opcode.IBV_WR_RDMA_WRITE, flags,
      send_wr_union.rdma remote_addr rkey⟩
  let r := call_post_send V id.qp wr s
  rdma_seterrno r.ret r.st

/-- The helper `rdma_post_recv`.  The assertion compares `addr` with `mr->addr`
and the two one-past-the-end pointers `(uint8_t *) addr + length` and
`(uint8_t *) mr->addr + mr->length`, each a 64-bit pointer sum that wraps
modulo `2 ^ 64`; the length stored in the entry is the length converted to
`uint32_t`. -/
def rdma_post_recv (V : Verbs σ) (id : rdma_cm_id) (context : Nat) (addr : Nat)
    (length : Nat) (mr : ibv_mr) (s : Run σ) : PostRet σ :=
  if addr ≥ mr.addr ∧ (addr + length) % 2 ^ 64 ≤ (mr.addr + mr.length) % 2 ^ 64 then
    let sge : ibv_sge := ⟨addr, length % 2 ^ 32, mr.lkey⟩
    let r := rdma_post_recvv V id context [sge] 1 s
    ⟨Outcome.returned r.ret, r.st⟩
  else ⟨Outcome.aborted, s⟩

/-- The expression `mr ? mr->lkey : 0`. -/
def lkey_or_zero : Option ibv_mr → Nat
  | some mr => mr.lkey
  | none => 0

/-- The helper `rdma_post_send`; `mr` may be `NULL`. -/
def rdma_post_send (V : Verbs σ) (id : rdma_cm_id) (context : Nat) (addr : Nat)
    (length : Nat) (mr : Option ibv_mr) (flags : Int) (s : Run σ) : Ret σ :=
  let sge : ibv_sge := ⟨addr, length % 2 ^ 32, lkey_or_zero mr⟩
  rdma_post_sendv V id context [sge] 1 flags s

/-- The helper `rdma_post_read`; `mr` is dereferenced without a test. -/
def rdma_post_read (V : Verbs σ) (id : rdma_cm_id) (context : Nat) (addr : Nat)
    (length : Nat) (mr : ibv_mr) (flags : Int) (remote_addr : Nat) (rkey : Nat)
    (s : Run σ) : Ret σ :=
  let sge : ibv_sge := ⟨addr, length % 2 ^ 32, mr.lkey⟩
  rdma_post_readv V id context [sge] 1 flags remote_addr rkey s

/-- The helper `rdma_post_write`; `mr` may be `NULL`. -/
def rdma_post_write (V : Verbs σ) (id : rdma_cm_id) (context : Nat) (addr : Nat)
    (length : Nat) (mr : Option ibv_mr) (flags : Int) (remote_addr : Nat) (rkey : Nat)
    (s : Run σ) : Ret σ :=
  let sge : ibv_sge := ⟨addr, length % 2 ^ 32, lkey_or_zero mr⟩
  rdma_post_writev V id context [sge] 1 flags remote_addr rkey s

/-- The helper `rdma_post_ud_send`; `mr` may be `NULL`. -/
def rdma_post_ud_send (V : Verbs σ) (id : rdma_cm_id) (context : Nat) (addr : Nat)
    (length : Nat) (mr : Option ibv_mr) (flags : Int) (ah : Nat) (remote_qpn : Nat)
    (s : Run σ) : Ret σ :=
  let sge : ibv_sge := ⟨addr, length % 2 ^ 32, lkey_or_zero mr⟩
  let wr : ibv_send_wr :=
    ⟨context, 0, [sge], 1, ibv_wr_opcode.IBV_WR_SEND, flags,
      send_wr_union.ud ah remote_qpn V.RDMA_UDP_QKEY⟩
  let r := call_post_send V id.qp wr s
  rdma_seterrno r.ret r.st


/-- The statement after the retrieval loop:
`return (ret < 0) ? rdma_seterrno(ret) : ret;` -/
def comp_return (ret : Int) (wc : ibv_wc) (s : Run σ) : CompRet σ :=
  if ret < 0 then
    let e := rdma_seterrno ret s
    ⟨Outcome.returned e.ret, wc, e.st⟩
  else ⟨Outcome.returned ret, wc, s⟩

/-- The retriever `rdma_get_send_comp`, with at most `fuel` loop iterations. -/
def rdma_get_send_comp (V : Verbs σ) (id : rdma_cm_id) :
    Nat → ibv_wc → Run σ → CompRet σ
  | 0, wc, s => ⟨Outcome.running, wc, s⟩
  | fuel + 1, wc, s =>
    let p1 := call_poll_cq V id.send_cq 1 wc s
    if p1.ret ≠ 0 then comp_return p1.ret p1.wc p1.st
    else
      let n := call_req_notify_cq V id.send_cq 0 p1.st
      if n.ret ≠ 0 then
        let e := rdma_seterrno n.ret n.st
        ⟨Outcome.returned e.ret, p1.wc, e.st⟩
      else
        let p2 := call_poll_cq V id.send_cq 1 p1.wc n.st
        if p2.ret ≠ 0 then comp_return p2.ret p2.wc p2.st
        else
          let w := call_get_cq_event V id.send_cq_channel p2.st
          if w.ret ≠ 0 then ⟨Outcome.returned w.ret, p2.wc, w.st⟩
          else if w.cq = id.send_cq ∧ w.context = id.addr then
            rdma_get_send_comp V id fuel p2.wc (call_ack_cq_events V id.send_cq 1 w.st)
          else ⟨Outcome.aborted, p2.wc, w.st⟩

/-- The retriever `rdma_get_recv_comp`, with at most `fuel` loop iterations. -/
def rdma_get_recv_comp (V : Verbs σ) (id : rdma_cm_id) :
    Nat → ibv_wc → Run σ → CompRet σ
  | 0, wc, s => ⟨Outcome.running, wc, s⟩
  | fuel + 1, wc, s =>
    let p1 := call_poll_cq V id.recv_cq 1 wc s
    if p1.ret ≠ 0 then comp_return p1.ret p1.wc p1.st
    else
      let n := call_req_notify_cq V id.recv_cq 0 p1.st
      if n.ret ≠ 0 then
        let e := rdma_seterrno n.ret n.st
        ⟨Outcome.returned e.ret, p1.wc, e.st⟩
      else
        let p2 := call_poll_cq V id.recv_cq 1 p1.wc n.st
        if p2.ret ≠ 0 then comp_return p2.ret p2.wc p2.st
        else
          let w := call_get_cq_event V id.recv_cq_channel p2.st
          if w.ret ≠ 0 then ⟨Outcome.returned w.ret, p2.wc, w.st⟩
          else if w.cq = id.recv_cq ∧ w.context = id.addr then
            rdma_get_recv_comp V id fuel p2.wc (call_ack_cq_events V id.recv_cq 1 w.st)
          else ⟨Outcome.aborted, p2.wc, w.st⟩

/-! ## Vocabulary of the statements -/

/-- The loop of the two retrievers, over the queue `cq`, its channel and the
address of the identifier; `rdma_get_send_comp` and `rdma_get_recv_comp` are
this loop at the send and at the receive queue (`rdma_get_send_comp_eq_loop`,
`rdma_get_recv_comp_eq_loop`). -/
def comp_loop (V : Verbs σ) (ida cq channel : Nat) : Nat → ibv_wc → Run σ → CompRet σ
  | 0, wc, s => ⟨Outcome.running, wc, s⟩
  | fuel + 1, wc, s =>
    let p1 := call_poll_cq V cq 1 wc s
    if p1.ret ≠ 0 then comp_return p1.ret p1.wc p1.st
    else
      let n := call_req_notify_cq V cq 0 p1.st
      if n.ret ≠ 0 then
        let e := rdma_seterrno n.ret n.st
        ⟨Outcome.returned e.ret, p1.wc, e.st⟩
      else
        let p2 := call_poll_cq V cq 1 p1.wc n.st
        if p2.ret ≠ 0 then comp_return p2.ret p2.wc p2.st
        else
          let w := call_get_cq_event V channel p2.st
          if w.ret ≠ 0 then ⟨Outcome.returned w.ret, p2.wc, w.st⟩
          else if w.cq = cq ∧ w.context = ida then
            comp_loop V ida cq channel fuel p2.wc (call_ack_cq_events V cq 1 w.st)
          else ⟨Outcome.aborted, p2.wc, w.st⟩

/-- The library calls made between the state `s` and the later state `t`. -/
def new_calls (s t : Run σ) : List Event :=
  t.trace.drop s.trace.length

/-- The value the statement after the loop returns for a poll result `r`. -/
def poll_result (r : Int) : Int :=
  if r < 0 then -1 else r

/-- The calls a retriever can make, with the way it ends: full iterations
(poll, arm, poll, wait, acknowledge) followed by one of the five ways out of the
loop, or by nothing when the iteration bound is used up. -/
inductive LoopShape (ida cq channel : Nat) : Outcome → List Event → Prop
  | bound : LoopShape ida cq channel Outcome.running []
  | first_poll (r : Int) (h : r ≠ 0) :
      LoopShape ida cq channel (Outcome.returned (poll_result r)) [Event.poll_cq cq 1 r]
  | arm_failed (r : Int) (h : r ≠ 0) :
      LoopShape ida cq channel (Outcome.returned (-1))
        [Event.poll_cq cq 1 0, Event.req_notify_cq cq 0 r]
  | second_poll (r : Int) (h : r ≠ 0) :
      LoopShape ida cq channel (Outcome.returned (poll_result r))
        [Event.poll_cq cq 1 0, Event.req_notify_cq cq 0 0, Event.poll_cq cq 1 r]
  | wait_failed (r : Int) (c x : Nat) (h : r ≠ 0) :
      LoopShape ida cq channel (Outcome.returned r)
        [Event.poll_cq cq 1 0, Event.req_notify_cq cq 0 0, Event.poll_cq cq 1 0,
          Event.get_cq_event channel r c x]
  | mismatch (c x : Nat) (h : ¬ (c = cq ∧ x = ida)) :
      LoopShape ida cq channel Outcome.aborted
        [Event.poll_cq cq 1 0, Event.req_notify_cq cq 0 0, Event.poll_cq cq 1 0,
          Event.get_cq_event channel 0 c x]
  | iteration (out : Outcome) (rest : List Event) (h : LoopShape ida cq channel out rest) :
      LoopShape ida cq channel out
        (Event.poll_cq cq 1 0 :: Event.req_notify_cq cq 0 0 :: Event.poll_cq cq 1 0 ::
          Event.get_cq_event channel 0 cq ida :: Event.ack_cq_events cq 1 :: rest)

/-! ## Two instances of the verbs library -/

/-- One scripted outcome of a library call: the value returned, the completion
a successful poll writes, the queue and context a wait delivers, and the value
the call stores in `errno`, if it stores one. -/
structure Reply where
  ret : Int
  wc : ibv_wc
  cq : Nat
  context : Nat
  errno : Option Int
deriving DecidableEq, Repr

/-- A call that returns `r` and does nothing else. -/
def Reply.of_ret (r : Int) : Reply := ⟨r, ⟨0, 0, 0⟩, 0, 0, none⟩

/-- A poll that finds the completion `w`. -/
def Reply.completion (w : ibv_wc) : Reply := ⟨1, w, 0, 0, none⟩

/-- A wait that wakes up with queue `cq` and context `context`. -/
def Reply.woken (cq context : Nat) : Reply := ⟨0, ⟨0, 0, 0⟩, cq, context, none⟩

/-- Consume the head of the script; an empty script answers `0`. -/
def next_reply (p : Proc (List Reply)) : Reply × Proc (List Reply) :=
  match p.env with
  | [] => (Reply.of_ret 0, p)
  | r :: rest => (r, ⟨r.errno.getD p.errno, rest⟩)

/-- The library driven by a script: each call except the acknowledgment takes
the next outcome of the list. -/
def scripted : Verbs (List Reply) where
  ibv_poll_cq := fun _ _ wc p =>
    let r := next_reply p
    (r.1.ret, if 0 < r.1.ret then r.1.wc else wc, r.2)
  ibv_req_notify_cq := fun _ _ p => let r := next_reply p; (r.1.ret, r.2)
  ibv_get_cq_event := fun _ p => let r := next_reply p; (r.1.ret, r.1.cq, r.1.context, r.2)
  ibv_ack_cq_events := fun _ _ p => p
  ibv_post_send := fun _ _ p => let r := next_reply p; (r.1.ret, r.2)
  ibv_post_recv := fun _ _ p => let r := next_reply p; (r.1.ret, r.2)
  ibv_post_srq_recv := fun _ _ p => let r := next_reply p; (r.1.ret, r.2)
  ibv_dereg_mr := fun _ p => let r := next_reply p; (r.1.ret, r.2)
  RDMA_UDP_QKEY := 0x01234567

/-- State of the first-in first-out model of a send completion queue: the
completions on the queue (oldest first), the completions that land on it while
the next notification request is being made, whether the queue is armed, and
the events waiting on the channel. -/
structure Fifo where
  cq : List ibv_wc
  late : List ibv_wc
  armed : Bool
  events : Nat
deriving DecidableEq, Repr

/-- Modelled from the spec: the hardware behind the send queue of the endpoint
`id`, which is not part of the sources.  Every work request posted to the queue
pair completes at once and puts one completion carrying its `wr_id` at the tail
of the send completion queue; a poll takes the completion at the head; a
completion that lands on an armed queue raises one event; the `late`
completions land after the poll that precedes a notification request and
before the queue is armed, so they raise no event. -/
def fifo (id : rdma_cm_id) : Verbs Fifo where
  ibv_poll_cq := fun c n wc p =>
    if c = id.send_cq ∧ 1 ≤ n then
      match p.env.cq with
      | [] => (0, wc, p)
      | w :: rest => (1, w, ⟨p.errno, ⟨rest, p.env.late, p.env.armed, p.env.events⟩⟩)
    else (0, wc, p)
  ibv_req_notify_cq := fun c _ p =>
    if c = id.send_cq then
      (0, ⟨p.errno, ⟨p.env.cq ++ p.env.late, [], true, p.env.events⟩⟩)
    else (22, p)
  ibv_get_cq_event := fun ch p =>
    if ch = id.send_cq_channel ∧ 0 < p.env.events then
      (0, id.send_cq, id.addr, ⟨p.errno, ⟨p.env.cq, p.env.late, p.env.armed, p.env.events - 1⟩⟩)
    else (-1, 0, 0, p)
  ibv_ack_cq_events := fun _ _ p => p
  ibv_post_send := fun qp wr p =>
    if qp = id.qp then
      (0, ⟨p.errno, ⟨p.env.cq ++ [⟨wr.wr_id, 0, 0⟩], p.env.late, false,
        if p.env.armed then p.env.events + 1 else p.env.events⟩⟩)
    else (22, p)
  ibv_post_recv := fun _ _ p => (0, p)
  ibv_post_srq_recv := fun _ _ p => (0, p)
  ibv_dereg_mr := fun _ p => (0, p)
  RDMA_UDP_QKEY := 0x01234567

/-- Post one send request per context of the list, in order, each with the
scatter-gather list `sgl`; gives the values returned and the final state. -/
def post_sends (V : Verbs σ) (id : rdma_cm_id) (sgl : List ibv_sge) (flags : Int) :
    List Nat → Run σ → List Int × Run σ
  | [], s => ([], s)
  | c :: cs, s =>
    let r := rdma_post_sendv V id c sgl (sgl.length : Int) flags s
    let rest := post_sends V id sgl flags cs r.st
    (r.ret :: rest.1, rest.2)

/-- Call `rdma_get_send_comp` `n` times in a row; gives, per call, how it ended
and the `wr_id` left in `wc`, and the final state. -/
def get_send_comps (V : Verbs σ) (id : rdma_cm_id) (fuel : Nat) :
    Nat → ibv_wc → Run σ → List (Outcome × Nat) × Run σ
  | 0, _, s => ([], s)
  | n + 1, wc, s =>
    let r := rdma_get_send_comp V id fuel wc s
    let rest := get_send_comps V id fuel n r.wc r.st
    ((r.out, r.wc.wr_id) :: rest.1, rest.2)

/-- An endpoint with distinct handles, used in the examples. -/
def ep : rdma_cm_id := ⟨1000, 10, 20, 0, 30, 31, 40, 41⟩

/-- A start state with `errno = 0` and no call made. -/
def start (e : σ) : Run σ := ⟨⟨0, e⟩, []⟩

/-- Every wait on the event channel found in `calls` is a wait on `channel` and
is immediately preceded by a successful request for notification of the next
completion on `cq` (`solicited_only = 0`, result `0`) followed by a poll of
`cq` for one entry that found nothing (result `0`). -/
def WaitsArmed (cq channel : Nat) (calls : List Event) : Prop :=
  ∀ pre c r q x post, calls = pre ++ Event.get_cq_event c r q x :: post →
    c = channel ∧ ∃ pre', pre = pre' ++ [Event.req_notify_cq cq 0 0, Event.poll_cq cq 1 0]

/-- The first poll of a retriever on the queue `cq`. -/
def first_poll (V : Verbs σ) (cq : Nat) (wc : ibv_wc) (s : Run σ) : Int × ibv_wc × Proc σ :=
  V.ibv_poll_cq cq 1 wc s.proc

/-- The notification request that follows the first poll. -/
def arm (V : Verbs σ) (cq : Nat) (wc : ibv_wc) (s : Run σ) : Int × Proc σ :=
  V.ibv_req_notify_cq cq 0 (first_poll V cq wc s).2.2

/-- The poll that follows the notification request. -/
def second_poll (V : Verbs σ) (cq : Nat) (wc : ibv_wc) (s : Run σ) : Int × ibv_wc × Proc σ :=
  V.ibv_poll_cq cq 1 (first_poll V cq wc s).2.1 (arm V cq wc s).2

/-- Number of events acknowledged against the queue `cq` in `calls`. -/
def events_acked (cq : Nat) : List Event → Nat
  | [] => 0
  | Event.ack_cq_events c k :: t => (if c = cq then k else 0) + events_acked cq t
  | _ :: t => events_acked cq t

/-- Number of calls of `ibv_ack_cq_events` in `calls`. -/
def ack_calls : List Event → Nat
  | [] => 0
  | Event.ack_cq_events _ _ :: t => 1 + ack_calls t
  | _ :: t => ack_calls t

/-- Number of waits on the event channel in `calls` that succeeded (returned 0). -/
def waits_succeeded : List Event → Nat
  | [] => 0
  | Event.get_cq_event _ r _ _ :: t => (if r = 0 then 1 else 0) + waits_succeeded t
  | _ :: t => waits_succeeded t

/-- A failed notification request or wait ends the retrieval: a notification
request or a wait in `calls` that returned a negative value is the last call,
and the retriever returns `-1` after the request, the value of the wait after
the wait. -/
def FailureIsFatal (calls : List Event) (out : Outcome) : Prop :=
  (∀ pre c so r post, calls = pre ++ Event.req_notify_cq c so r :: post → r < 0 →
    post = [] ∧ out = Outcome.returned (-1)) ∧
  (∀ pre c r q x post, calls = pre ++ Event.get_cq_event c r q x :: post → r < 0 →
    post = [] ∧ out = Outcome.returned r)

/-- A successful wait in `calls` that delivers a queue other than `cq` or a
context other than `ida` is the last call and the run is aborted; one that
delivers both is followed by the acknowledgment of one event on `cq` and then,
unless the iteration bound stops the run, by a poll of `cq`. -/
def WakeChecked (ida cq : Nat) (calls : List Event) (out : Outcome) : Prop :=
  ∀ pre c q x post, calls = pre ++ Event.get_cq_event c 0 q x :: post →
    (¬ (q = cq ∧ x = ida) → post = [] ∧ out = Outcome.aborted) ∧
    ((q = cq ∧ x = ida) → ∃ rest, post = Event.ack_cq_events cq 1 :: rest ∧
      ((rest = [] ∧ out = Outcome.running) ∨ ∃ r rest', rest = Event.poll_cq cq 1 r :: rest'))

/-- A script on which a send retrieval is woken twice before its poll finds
completion 7. -/
def two_wakes : List Reply :=
  [Reply.of_ret 0, Reply.of_ret 0, Reply.of_ret 0, Reply.woken 30 1000,
    Reply.of_ret 0, Reply.of_ret 0, Reply.of_ret 0, Reply.woken 30 1000,
    Reply.completion ⟨7, 0, 0⟩]

/-- The return convention of `rdma_seterrno` for an operation with result `res`
whose library call gave `u`: the result is 0 exactly when the call returned 0,
and then the process state, `errno` included, is as the call left it; otherwise
the result is `-1` and `errno` holds the value the call returned. -/
def SeterrnoConvention (u : Int × Proc σ) (res : Ret σ) : Prop :=
  (res.ret = 0 ↔ u.1 = 0) ∧ (u.1 = 0 → res.st.proc = u.2) ∧
  (u.1 ≠ 0 → res.ret = -1 ∧ res.st.proc.errno = u.1 ∧ res.st.proc.env = u.2.env)

/-- The byte range `[addr, addr + length)` lies wholly within the registered
region `[mr.addr, mr.addr + mr.length)`. -/
def RangeWithin (addr length : Nat) (mr : ibv_mr) : Prop :=
  ∀ b, addr ≤ b → b < addr + length → mr.addr ≤ b ∧ b < mr.addr + mr.length

/-- The scatter-gather entry `(addr, length, lkey)` for a buffer of `length`
bytes, a `size_t`, as a `struct ibv_sge` holds it: the `uint32_t` field
`length` keeps the length modulo `2 ^ 32`. -/
def sge_entry (addr length lkey : Nat) : ibv_sge :=
  ⟨addr, length % 2 ^ 32, lkey⟩

/-- The single-buffer receive as the specification words it: the vector form
with the one-entry list `(addr, length, mr's local key)`. -/
def spec_post_recv (V : Verbs σ) (id : rdma_cm_id) (context addr length : Nat) (mr : ibv_mr)
    (s : Run σ) : Ret σ :=
  rdma_post_recvv V id context [sge_entry addr length mr.lkey] 1 s

/-- The single-buffer send as the specification words it: the vector form with
the one-entry list `(addr, length, mr's local key)`. -/
def spec_post_send (V : Verbs σ) (id : rdma_cm_id) (context addr length : Nat) (mr : ibv_mr)
    (flags : Int) (s : Run σ) : Ret σ :=
  rdma_post_sendv V id context [sge_entry addr length mr.lkey] 1 flags s

/-- The single-buffer read as the specification words it: the vector form with
the one-entry list `(addr, length, mr's local key)`. -/
def spec_post_read (V : Verbs σ) (id : rdma_cm_id) (context addr length : Nat) (mr : ibv_mr)
    (flags : Int) (remote_addr rkey : Nat) (s : Run σ) : Ret σ :=
  rdma_post_readv V id context [sge_entry addr length mr.lkey] 1 flags remote_addr rkey s

/-- The single-buffer write as the specification words it: the vector form with
the one-entry list `(addr, length, mr's local key)`. -/
def spec_post_write (V : Verbs σ) (id : rdma_cm_id) (context addr length : Nat) (mr : ibv_mr)
    (flags : Int) (remote_addr rkey : Nat) (s : Run σ) : Ret σ :=
  rdma_post_writev V id context [sge_entry addr length mr.lkey] 1 flags remote_addr rkey s

/-! ## `examples/common.c`: address resolution

`rdma_getaddrinfo` and `rdma_freeaddrinfo` are library calls, taken as the
parameter `Resolver σ`.  A result pointer is a natural number and `load` reads
the record it designates; strings are `Option String` (`none` is `NULL`); the
`int` flag word is its 32-bit pattern, so `~x` is `x ^^^ 0xFFFFFFFF`. -/

/-- Modelled from the spec: the resolution hints and results, `struct
rdma_addrinfo` of `rdma_cma.h`, which is not among the sources: the flag word,
the protocol fields, and the source and destination address with their
lengths. -/
structure rdma_addrinfo where
  ai_flags : Nat
  ai_family : Int
  ai_qp_type : Int
  ai_port_space : Int
  ai_src_len : Nat
  ai_dst_len : Nat
  ai_src_addr : Nat
  ai_dst_addr : Nat
deriving DecidableEq, Repr

/-- The resolution service.  `rdma_getaddrinfo node service hints cur` returns
its result code and the contents of the result pointer afterwards (`cur`
before the call); `load` reads the record a result pointer designates. -/
structure Resolver (σ : Type) where
  rdma_getaddrinfo : Option String → Option String → rdma_addrinfo → Nat → σ → Int × Nat × σ
  rdma_freeaddrinfo : Nat → σ → σ
  load : Nat → σ → rdma_addrinfo
  /-- Modelled from the spec: the bit of the flag word that marks a passive
  (listening) role; `rdma_cma.h`, which defines it, is not among the sources. -/
  RAI_PASSIVE : Nat

/-- One call of the resolution service with what it returned. -/
inductive AddrEvent where
  | getaddrinfo (node service : Option String) (hints : rdma_addrinfo) (ret : Int) (res : Nat)
  | freeaddrinfo (res : Nat)
deriving DecidableEq, Repr

/-- State of the resolution service with the calls made so far. -/
structure AddrRun (σ : Type) where
  env : σ
  trace : List AddrEvent
deriving DecidableEq, Repr

/-- Result of a recorded `rdma_getaddrinfo`. -/
structure GaiRet (σ : Type) where
  ret : Int
  res : Nat
  st : AddrRun σ
deriving DecidableEq, Repr

/-- Result of `get_rdma_addr`: the value returned, the contents of `*rai` and
of the caller's `*hints` afterwards, and the state. -/
structure AddrRet (σ : Type) where
  ret : Int
  rai : Nat
  hints : rdma_addrinfo
  st : AddrRun σ
deriving DecidableEq, Repr

/-- Call `rdma_getaddrinfo` and record it. -/
def call_getaddrinfo (R : Resolver σ) (node service : Option String) (hints : rdma_addrinfo)
    (cur : Nat) (s : AddrRun σ) : GaiRet σ :=
  let r := R.rdma_getaddrinfo node service hints cur s.env
  ⟨r.1, r.2.1, ⟨r.2.2, s.trace ++ [AddrEvent.getaddrinfo node service hints r.1 r.2.1]⟩⟩

/-- Call `rdma_freeaddrinfo` and record it. -/
def call_freeaddrinfo (R : Resolver σ) (res : Nat) (s : AddrRun σ) : AddrRun σ :=
  ⟨R.rdma_freeaddrinfo res s.env, s.trace ++ [AddrEvent.freeaddrinfo res]⟩

/-- The function `get_rdma_addr`.  `rai` is the contents of the caller's result
pointer before the call.  The local `res` is not initialised in the source; it
is read only after a first call that returned 0, and starts as 0 here. -/
def get_rdma_addr (R : Resolver σ) (src dst port : Option String) (hints : rdma_addrinfo)
    (rai : Nat) (s : AddrRun σ) : AddrRet σ :=
  if hints.ai_flags &&& R.RAI_PASSIVE ≠ 0 then
    let r := call_getaddrinfo R src port hints rai s
    ⟨r.ret, r.res, hints, r.st⟩
  else
    let rai_hints := hints
    match src with
    | some _ =>
      let h1 := { rai_hints with ai_flags := rai_hints.ai_flags ||| R.RAI_PASSIVE }
      let r1 := call_getaddrinfo R src none h1 0 s
      if r1.ret ≠ 0 then ⟨r1.ret, rai, hints, r1.st⟩
      else
        let res := R.load r1.res r1.st.env
        let h2 := { h1 with
          ai_src_addr := res.ai_src_addr
          ai_src_len := res.ai_src_len
          ai_flags := h1.ai_flags &&& (R.RAI_PASSIVE ^^^ 0xFFFFFFFF) }
        let r2 := call_getaddrinfo R dst port h2 rai r1.st
        ⟨r2.ret, r2.res, hints, call_freeaddrinfo R r1.res r2.st⟩
    | none =>
      let r2 := call_getaddrinfo R dst port rai_hints rai s
      ⟨r2.ret, r2.res, hints, r2.st⟩

/-- The calls of the resolution service made between `s` and the later `t`. -/
def addr_calls (s t : AddrRun σ) : List AddrEvent :=
  t.trace.drop s.trace.length

/-- The result pointers released in `calls`, in order. -/
def releases : List AddrEvent → List Nat
  | [] => []
  | AddrEvent.freeaddrinfo p :: t => p :: releases t
  | _ :: t => releases t

/-- The result codes of the resolution calls in `calls`, in order. -/
def resolution_codes : List AddrEvent → List Int
  | [] => []
  | AddrEvent.getaddrinfo _ _ _ r _ :: t => r :: resolution_codes t
  | _ :: t => resolution_codes t

/-- State of the table-driven resolution service: the records handed out so
far (result pointer `k + 1` designates the `k`-th) and the pointers released. -/
structure Table where
  heap : List rdma_addrinfo
  freed : List Nat
deriving DecidableEq, Repr

/-- The hosts the table-driven service knows, with their addresses. -/
def hosts : List (String × Nat) :=
  [("10.0.0.5", 0x0A000005), ("10.0.0.9", 0x0A000009)]

/-- Look a host name up in `hosts`. -/
def host_addr (name : String) : Option Nat :=
  (hosts.find? (fun h => h.1 == name)).map Prod.snd

/-- A resolution service for the examples, with passive bit 1.  A known node
resolves to a new record that copies the hints and sets the source address
(passive hints) or the destination address (active hints, the source address
of the hints kept) with length 16; an unknown or missing node fails with -2
and leaves the result pointer alone. -/
def table : Resolver Table where
  rdma_getaddrinfo := fun node _ hints cur e =>
    match node.bind host_addr with
    | none => (-2, cur, e)
    | some a =>
      (0, e.heap.length + 1,
        ⟨e.heap ++ [if hints.ai_flags &&& 1 ≠ 0
            then { hints with ai_src_addr := a, ai_src_len := 16 }
            else { hints with ai_dst_addr := a, ai_dst_len := 16 }], e.freed⟩)
  rdma_freeaddrinfo := fun p e => ⟨e.heap, e.freed ++ [p]⟩
  load := fun p e => e.heap.getD (p - 1) ⟨0, 0, 0, 0, 0, 0, 0, 0⟩
  RAI_PASSIVE := 1

/-- Hints of a listener: the passive bit alone. -/
def passive_hints : rdma_addrinfo := ⟨1, 0, 0, 262, 0, 0, 0, 0⟩

/-- Hints of a connecting side: no flag set. -/
def active_hints : rdma_addrinfo := ⟨0, 0, 0, 262, 0, 0, 0, 0⟩

/-- The start state of the table-driven service. -/
def table_start : AddrRun Table := ⟨⟨[], []⟩, []⟩

/-- The hints of the first phase: the caller's hints with the passive bit set. -/
def pin_hints (R : Resolver σ) (hints : rdma_addrinfo) : rdma_addrinfo :=
  { hints with ai_flags := hints.ai_flags ||| R.RAI_PASSIVE }

/-- The first-phase call for the source `a`: `(a, NULL)` with `pin_hints`. -/
def first_phase (R : Resolver σ) (a : String) (hints : rdma_addrinfo) (s : AddrRun σ) :
    Int × Nat × σ :=
  R.rdma_getaddrinfo (some a) none (pin_hints R hints) 0 s.env

/-- The hints of the second phase: those of the first with the source address
and length of the first result and the passive bit cleared. -/
def pinned_hints (R : Resolver σ) (a : String) (hints : rdma_addrinfo) (s : AddrRun σ) :
    rdma_addrinfo :=
  { pin_hints R hints with
    ai_src_addr := (R.load (first_phase R a hints s).2.1 (first_phase R a hints s).2.2).ai_src_addr
    ai_src_len := (R.load (first_phase R a hints s).2.1 (first_phase R a hints s).2.2).ai_src_len
    ai_flags := (pin_hints R hints).ai_flags &&& (R.RAI_PASSIVE ^^^ 0xFFFFFFFF) }

/-- The second-phase call: `(dst, port)` with `pinned_hints`, after the first. -/
def second_phase (R : Resolver σ) (a : String) (dst port : Option String)
    (hints : rdma_addrinfo) (rai : Nat) (s : AddrRun σ) : Int × Nat × σ :=
  R.rdma_getaddrinfo dst port (pinned_hints R a hints s) rai (first_phase R a hints s).2.2

/-! ## `examples/common.c`: readiness wait

`rs_poll` is the macro of `common.h`, `use_rs ? rpoll(f,n,t) : poll(f,n,t)`;
`rpoll` and `poll` are library calls, taken as the parameter `Poller σ`, which
also gives the flag values `POLLERR` and `POLLHUP` of `<poll.h>`.  The `short`
fields `events` and `revents` are their bit patterns. -/

/-- The descriptor record `struct pollfd`. -/
structure pollfd where
  fd : Int
  events : Nat
  revents : Nat
deriving DecidableEq, Repr

/-- The readiness checks.  `rpoll fds nfds timeout` and `poll fds nfds timeout`
return their result and the `revents` they leave in the descriptor record. -/
structure Poller (σ : Type) where
  rpoll : pollfd → Nat → Int → σ → Int × Nat × σ
  poll : pollfd → Nat → Int → σ → Int × Nat × σ
  POLLERR : Nat
  POLLHUP : Nat

/-- One readiness check with its arguments and what it returned; `rs` tells
`rpoll` from `poll`. -/
structure PollEvent where
  rs : Bool
  fd : Int
  events : Nat
  nfds : Nat
  timeout : Int
  ret : Int
  revents : Nat
deriving DecidableEq, Repr

/-- State of the readiness service with the checks made so far. -/
structure PollRun (σ : Type) where
  env : σ
  trace : List PollEvent
deriving DecidableEq, Repr

/-- Result of a recorded readiness check: the value returned, the descriptor
record afterwards, the state. -/
structure RsPollRet (σ : Type) where
  ret : Int
  fds : pollfd
  st : PollRun σ
deriving DecidableEq, Repr

/-- Result of `do_poll`. -/
structure DoPollRet (σ : Type) where
  out : Outcome
  fds : pollfd
  st : PollRun σ
deriving DecidableEq, Repr

/-- The macro `rs_poll(f,n,t)`, recorded; `use_rs` is the global variable of
`common.c` the macro reads. -/
def rs_poll (P : Poller σ) (use_rs : Int) (f : pollfd) (n : Nat) (t : Int) (s : PollRun σ) :
    RsPollRet σ :=
  if use_rs ≠ 0 then
    let r := P.rpoll f n t s.env
    ⟨r.1, { f with revents := r.2.1 },
      ⟨r.2.2, s.trace ++ [⟨true, f.fd, f.events, n, t, r.1, r.2.1⟩]⟩⟩
  else
    let r := P.poll f n t s.env
    ⟨r.1, { f with revents := r.2.1 },
      ⟨r.2.2, s.trace ++ [⟨false, f.fd, f.events, n, t, r.1, r.2.1⟩]⟩⟩

/-- The function `do_poll`, with at most `fuel` iterations of its loop:
`do { ret = rs_poll(fds, 1, timeout); } while (!ret);`
`return ret == 1 ? (fds->revents & (POLLERR | POLLHUP)) : ret;` -/
def do_poll (P : Poller σ) (use_rs : Int) (timeout : Int) :
    Nat → pollfd → PollRun σ → DoPollRet σ
  | 0, fds, s => ⟨Outcome.running, fds, s⟩
  | fuel + 1, fds, s =>
    let r := rs_poll P use_rs fds 1 timeout s
    if r.ret = 0 then do_poll P use_rs timeout fuel r.fds r.st
    else
      ⟨Outcome.returned
          (if r.ret = 1 then ((r.fds.revents &&& (P.POLLERR ||| P.POLLHUP) : Nat) : Int)
            else r.ret),
        r.fds, r.st⟩

/-- The descriptor record and the state after `k` readiness checks. -/
def after_checks (P : Poller σ) (use_rs : Int) (timeout : Int) :
    Nat → pollfd → PollRun σ → pollfd × PollRun σ
  | 0, fds, s => (fds, s)
  | k + 1, fds, s =>
    after_checks P use_rs timeout k (rs_poll P use_rs fds 1 timeout s).fds
      (rs_poll P use_rs fds 1 timeout s).st

/-- The check number `k + 1` of a run that starts from `fds` and `s`. -/
def check_at (P : Poller σ) (use_rs : Int) (timeout : Int) (k : Nat) (fds : pollfd)
    (s : PollRun σ) : RsPollRet σ :=
  rs_poll P use_rs (after_checks P use_rs timeout k fds s).1 1 timeout
    (after_checks P use_rs timeout k fds s).2

/-- The readiness checks made between `s` and the later `t`. -/
def poll_calls (s t : PollRun σ) : List PollEvent :=
  t.trace.drop s.trace.length

/-- A readiness service driven by a list of outcomes (result, `revents`), one
per check, with the Linux values of the two flags; it fails with `-1` once the
list is used up. -/
def script_poller : Poller (List (Int × Nat)) where
  rpoll := fun _ _ _ e =>
    match e with
    | [] => (-1, 0, [])
    | r :: rest => (r.1, r.2, rest)
  poll := fun _ _ _ e =>
    match e with
    | [] => (-1, 0, [])
    | r :: rest => (r.1, r.2, rest)
  POLLERR := 0x008
  POLLHUP := 0x010

/-! ## `examples/common.c`: buffer fill and verification

A buffer is the memory behind the pointer, a function from the index to the
byte; the `static` counters are threaded through the calls. -/

/-- The loop of `format_buf` with `n` iterations left at index `i`:
`array[i] = data++`. -/
def format_loop : Nat → Nat → (Nat → Nat) → Nat → (Nat → Nat) × Nat
  | 0, _, array, data => (array, data)
  | n + 1, i, array, data =>
    format_loop n (i + 1) (Function.update array i data) ((data + 1) % 256)

/-- The function `format_buf`: gives the buffer and the counter `data`
afterwards. -/
def format_buf (array : Nat → Nat) (size : Int) (data : Nat) : (Nat → Nat) × Nat :=
  format_loop size.toNat 0 array data

/-- The loop of `verify_buf` with `n` iterations left at index `i`; gives the
value returned and the counters `data` and `total_bytes` afterwards.  On a
difference `data` has been advanced and `total_bytes` has not; `total_bytes`
(`long long`, only printed) is an integer. -/
def verify_loop : Nat → Nat → (Nat → Nat) → Nat → Int → Int × Nat × Int
  | 0, _, _, data, total_bytes => (0, data, total_bytes)
  | n + 1, i, array, data, total_bytes =>
    if array i ≠ data then (-1, (data + 1) % 256, total_bytes)
    else verify_loop n (i + 1) array ((data + 1) % 256) (total_bytes + 1)

/-- The function `verify_buf`. -/
def verify_buf (array : Nat → Nat) (size : Int) (data : Nat) (total_bytes : Int) :
    Int × Nat × Int :=
  verify_loop size.toNat 0 array data total_bytes

/-- Fill each buffer of the list with `format_buf`, in order, threading the
counter; gives the filled buffers with their sizes and the counter. -/
def format_all : List ((Nat → Nat) × Int) → Nat → List ((Nat → Nat) × Int) × Nat
  | [], data => ([], data)
  | b :: bs, data =>
    let r := format_buf b.1 b.2 data
    let rest := format_all bs r.2
    ((r.1, b.2) :: rest.1, rest.2)

/-- Pass each buffer of the list to `verify_buf`, in order, threading the
counters; gives the values returned and the counters. -/
def verify_all : List ((Nat → Nat) × Int) → Nat → Int → List Int × Nat × Int
  | [], data, total_bytes => ([], data, total_bytes)
  | b :: bs, data, total_bytes =>
    let r := verify_buf b.1 b.2 data total_bytes
    let rest := verify_all bs r.2.1 r.2.2
    (r.1 :: rest.1, rest.2)

/-! ## `examples/common.c`: size formatting

`snprintf` is a library call; its conversions `%lld` and `%c` are written out
here.  `long long` values are integers: the products formed stay below
`10 * 2 ^ 30`.  `/` and `%` of C are `Int.tdiv` and `Int.tmod`. -/

/-- The decimal digits of `n`, most significant first; `fuel` bounds their
number. -/
def decimal_digits : Nat → Nat → List Char
  | 0, _ => []
  | fuel + 1, n =>
    if n < 10 then [Nat.digitChar n]
    else decimal_digits fuel (n / 10) ++ [Nat.digitChar (n % 10)]

/-- The conversion `%lld`: the decimal digits of the value, after a minus sign
when it is negative. -/
def lld (v : Int) : List Char :=
  if v < 0 then (Char.ofNat 45) :: decimal_digits (v.natAbs + 1) v.natAbs
  else decimal_digits (v.natAbs + 1) v.natAbs

/-- The C string in the buffer after `snprintf(str, ssize, ...)` produced the
characters `text`: nothing is written when `ssize` is 0; otherwise at most
`ssize - 1` characters and the terminator are, and the string ends at the first
NUL. -/
def snprintf (str : String) (ssize : Nat) (text : List Char) : String :=
  if ssize = 0 then str
  else String.mk ((text.take (ssize - 1)).takeWhile (fun c => c != Char.ofNat 0))

/-- The function `size_str`; `2 ^ 30`, `2 ^ 20`, `2 ^ 10` are `1 << 30`,
`1 << 20`, `1 << 10`, and the magnitude of a size below 1024 is the NUL
character.  Gives the C string in `str` afterwards. -/
def size_str (str : String) (ssize : Nat) (size : Int) : String :=
  let bm : Int × Char :=
    if size ≥ 2 ^ 30 then (2 ^ 30, 'g')
    else if size ≥ 2 ^ 20 then (2 ^ 20, 'm')
    else if size ≥ 2 ^ 10 then (2 ^ 10, 'k')
    else (1, Char.ofNat 0)
  let fraction : Int :=
    if size.tdiv bm.1 < 10 then ((size.tmod bm.1) * 10).tdiv bm.1 else 0
  if fraction ≠ 0 then
    snprintf str ssize (lld (size.tdiv bm.1) ++ ['.'] ++ lld fraction ++ [bm.2])
  else snprintf str ssize (lld (size.tdiv bm.1) ++ [bm.2])

/-- The unit of a size as the specification words it: the largest of `2 ^ 30`,
`2 ^ 20`, `2 ^ 10` that does not exceed the size, and 1 when none does. -/
def unit_of (n : Nat) : Nat :=
  ([2 ^ 30, 2 ^ 20, 2 ^ 10].find? (fun b => b ≤ n)).getD 1

/-- The suffix that goes with a unit: none, `k`, `m` or `g`. -/
def suffix_of (base : Nat) : List Char :=
  if base = 2 ^ 30 then ['g'] else if base = 2 ^ 20 then ['m']
  else if base = 2 ^ 10 then ['k'] else []

/-- The digit after the point: `((size mod base) * 10) div base`. -/
def tenth_of (n : Nat) : Nat :=
  (n % unit_of n) * 10 / unit_of n

/-- The text of a size as the specification words it: the decimal of
`size div base`, then a point and the digit `tenth_of` when `size div base` is
below 10 and the digit is not 0, then the suffix. -/
def size_text (n : Nat) : List Char :=
  lld (n / unit_of n : Nat) ++
    (if n / unit_of n < 10 ∧ tenth_of n ≠ 0 then ['.', Nat.digitChar (tenth_of n)] else []) ++
    suffix_of (unit_of n)

/-- The value a digit string denotes in base ten. -/
def decimal_value (l : List Char) : Nat :=
  l.foldl (fun acc c => 10 * acc + (c.toNat - 48)) 0

/-! ## Theorems -/

theorem rdma_get_send_comp_eq_loop (V : Verbs σ) (id : rdma_cm_id) (fuel : Nat)
    (wc : ibv_wc) (s : Run σ) :
    rdma_get_send_comp V id fuel wc s
      = comp_loop V id.addr id.send_cq id.send_cq_channel fuel wc s := by
  induction fuel generalizing wc s with
  | zero => rfl
  | succ k ih => simp only [rdma_get_send_comp, comp_loop, ih]

theorem rdma_get_recv_comp_eq_loop (V : Verbs σ) (id : rdma_cm_id) (fuel : Nat)
    (wc : ibv_wc) (s : Run σ) :
    rdma_get_recv_comp V id fuel wc s
      = comp_loop V id.addr id.recv_cq id.recv_cq_channel fuel wc s := by
  induction fuel generalizing wc s with
  | zero => rfl
  | succ k ih => simp only [rdma_get_recv_comp, comp_loop, ih]

theorem call_poll_cq_trace (V : Verbs σ) (cq : Nat) (n : Int) (wc : ibv_wc) (s : Run σ) :
    (call_poll_cq V cq n wc s).st.trace
      = s.trace ++ [Event.poll_cq cq n (call_poll_cq V cq n wc s).ret] := rfl

theorem call_req_notify_cq_trace (V : Verbs σ) (cq : Nat) (so : Int) (s : Run σ) :
    (call_req_notify_cq V cq so s).st.trace
      = s.trace ++ [Event.req_notify_cq cq so (call_req_notify_cq V cq so s).ret] := rfl

theorem call_get_cq_event_trace (V : Verbs σ) (channel : Nat) (s : Run σ) :
    (call_get_cq_event V channel s).st.trace
      = s.trace ++ [Event.get_cq_event channel (call_get_cq_event V channel s).ret
          (call_get_cq_event V channel s).cq (call_get_cq_event V channel s).context] := rfl

theorem call_ack_cq_events_trace (V : Verbs σ) (cq : Nat) (k : Nat) (s : Run σ) :
    (call_ack_cq_events V cq k s).trace = s.trace ++ [Event.ack_cq_events cq k] := rfl

theorem rdma_seterrno_trace (r : Int) (s : Run σ) : (rdma_seterrno r s).st.trace = s.trace := by
  unfold rdma_seterrno; split <;> rfl

theorem rdma_seterrno_ret (r : Int) (s : Run σ) (h : r ≠ 0) : (rdma_seterrno r s).ret = -1 := by
  unfold rdma_seterrno; rw [if_pos h]

theorem comp_return_out (r : Int) (wc : ibv_wc) (s : Run σ) (h : r ≠ 0) :
    (comp_return r wc s).out = Outcome.returned (poll_result r) := by
  unfold comp_return poll_result
  split
  · simp [rdma_seterrno_ret r s h]
  · rfl

theorem comp_return_trace (r : Int) (wc : ibv_wc) (s : Run σ) :
    (comp_return r wc s).st.trace = s.trace := by
  unfold comp_return
  split
  · simp [rdma_seterrno_trace]
  · rfl

/-- Every run of the loop extends the trace by calls of the shape `LoopShape`. -/
theorem comp_loop_shape (V : Verbs σ) (ida cq channel : Nat) (fuel : Nat) (wc : ibv_wc)
    (s : Run σ) :
    ∃ ext, (comp_loop V ida cq channel fuel wc s).st.trace = s.trace ++ ext ∧
      LoopShape ida cq channel (comp_loop V ida cq channel fuel wc s).out ext := by
  induction fuel generalizing wc s with
  | zero => exact ⟨[], by simp [comp_loop], LoopShape.bound⟩
  | succ k ih =>
    unfold comp_loop
    simp only
    by_cases h1 : (call_poll_cq V cq 1 wc s).ret ≠ 0
    · rw [if_pos h1]
      refine ⟨[Event.poll_cq cq 1 (call_poll_cq V cq 1 wc s).ret], ?_, ?_⟩
      · rw [comp_return_trace]; rfl
      · rw [comp_return_out _ _ _ h1]; exact LoopShape.first_poll _ h1
    · rw [if_neg h1]
      have e1 : (call_poll_cq V cq 1 wc s).ret = 0 := not_not.mp h1
      have t1 := call_poll_cq_trace V cq 1 wc s
      rw [e1] at t1
      generalize call_poll_cq V cq 1 wc s = p1 at t1
      by_cases h2 : (call_req_notify_cq V cq 0 p1.st).ret ≠ 0
      · rw [if_pos h2]
        refine ⟨[Event.poll_cq cq 1 0,
          Event.req_notify_cq cq 0 (call_req_notify_cq V cq 0 p1.st).ret], ?_, ?_⟩
        · simp only [rdma_seterrno_trace, call_req_notify_cq_trace, t1, List.append_assoc,
            List.singleton_append]
        · simp only [rdma_seterrno_ret _ _ h2]; exact LoopShape.arm_failed _ h2
      · rw [if_neg h2]
        have e2 : (call_req_notify_cq V cq 0 p1.st).ret = 0 := not_not.mp h2
        have t2 := call_req_notify_cq_trace V cq 0 p1.st
        rw [e2, t1] at t2
        generalize call_req_notify_cq V cq 0 p1.st = n at t2
        by_cases h3 : (call_poll_cq V cq 1 p1.wc n.st).ret ≠ 0
        · rw [if_pos h3]
          refine ⟨[Event.poll_cq cq 1 0, Event.req_notify_cq cq 0 0,
            Event.poll_cq cq 1 (call_poll_cq V cq 1 p1.wc n.st).ret], ?_, ?_⟩
          · simp [comp_return_trace, call_poll_cq_trace, t2]
          · rw [comp_return_out _ _ _ h3]; exact LoopShape.second_poll _ h3
        · rw [if_neg h3]
          have e3 : (call_poll_cq V cq 1 p1.wc n.st).ret = 0 := not_not.mp h3
          have t3 := call_poll_cq_trace V cq 1 p1.wc n.st
          rw [e3, t2] at t3
          generalize call_poll_cq V cq 1 p1.wc n.st = p2 at t3
          have t4 := call_get_cq_event_trace V channel p2.st
          rw [t3] at t4
          by_cases h4 : (call_get_cq_event V channel p2.st).ret ≠ 0
          · rw [if_pos h4]
            refine ⟨[Event.poll_cq cq 1 0, Event.req_notify_cq cq 0 0, Event.poll_cq cq 1 0,
              Event.get_cq_event channel (call_get_cq_event V channel p2.st).ret
                (call_get_cq_event V channel p2.st).cq
                (call_get_cq_event V channel p2.st).context], ?_, ?_⟩
            · simp [t4]
            · exact LoopShape.wait_failed _ _ _ h4
          · rw [if_neg h4]
            have e4 : (call_get_cq_event V channel p2.st).ret = 0 := not_not.mp h4
            rw [e4] at t4
            generalize call_get_cq_event V channel p2.st = w at t4
            by_cases h5 : w.cq = cq ∧ w.context = ida
            · rw [if_pos h5]
              obtain ⟨ext, hext, hshape⟩ := ih p2.wc (call_ack_cq_events V cq 1 w.st)
              refine ⟨Event.poll_cq cq 1 0 :: Event.req_notify_cq cq 0 0 ::
                Event.poll_cq cq 1 0 :: Event.get_cq_event channel 0 cq ida ::
                Event.ack_cq_events cq 1 :: ext, ?_, LoopShape.iteration _ _ hshape⟩
              rw [hext, call_ack_cq_events_trace, t4, h5.1, h5.2]
              simp only [List.append_assoc, List.singleton_append, List.cons_append,
                List.nil_append]
            · rw [if_neg h5]
              refine ⟨[Event.poll_cq cq 1 0, Event.req_notify_cq cq 0 0, Event.poll_cq cq 1 0,
                Event.get_cq_event channel 0 w.cq w.context], ?_, ?_⟩
              · simp [t4]
              · exact LoopShape.mismatch _ _ h5

/-- In a loop trace every wait is on the loop's channel and comes right after a
successful arm of the queue and an empty poll of it. -/
theorem LoopShape.waits_armed {ida cq ch : Nat} {out : Outcome} {ext : List Event}
    (h : LoopShape ida cq ch out ext) :
    ∀ pre c r q x post, ext = pre ++ Event.get_cq_event c r q x :: post →
      c = ch ∧ ∃ pre', pre = pre' ++ [Event.req_notify_cq cq 0 0, Event.poll_cq cq 1 0] := by
  induction h with
  | bound => intro pre c r q x post h; simp at h
  | first_poll r0 hr =>
    intro pre c r q x post h
    rcases pre with _ | ⟨a, _ | ⟨b, pre⟩⟩ <;> simp at h
  | arm_failed r0 hr =>
    intro pre c r q x post h
    rcases pre with _ | ⟨a, _ | ⟨b, _ | ⟨d, pre⟩⟩⟩ <;> simp at h
  | second_poll r0 hr =>
    intro pre c r q x post h
    rcases pre with _ | ⟨a, _ | ⟨b, _ | ⟨d, _ | ⟨e, pre⟩⟩⟩⟩ <;> simp at h
  | wait_failed r0 c0 x0 hr =>
    intro pre c r q x post h
    rcases pre with _ | ⟨a, _ | ⟨b, _ | ⟨d, _ | ⟨e, pre⟩⟩⟩⟩ <;> simp at h
    obtain ⟨ha, hb, hd, hw, -⟩ := h
    exact ⟨hw.1.symm, [a], by simp [hb, hd]⟩
  | mismatch c0 x0 hm =>
    intro pre c r q x post h
    rcases pre with _ | ⟨a, _ | ⟨b, _ | ⟨d, _ | ⟨e, pre⟩⟩⟩⟩ <;> simp at h
    obtain ⟨ha, hb, hd, hw, -⟩ := h
    exact ⟨hw.1.symm, [a], by simp [hb, hd]⟩
  | iteration out0 rest hrest ih =>
    intro pre c r q x post h
    rcases pre with _ | ⟨a, _ | ⟨b, _ | ⟨d, _ | ⟨e, _ | ⟨f, pre⟩⟩⟩⟩⟩ <;> simp at h
    · obtain ⟨ha, hb, hd, hw, -⟩ := h
      exact ⟨hw.1.symm, [a], by simp [hb, hd]⟩
    · obtain ⟨ha, hb, hd, he, hf, hrest'⟩ := h
      obtain ⟨hc, pre', hpre⟩ := ih pre c r q x post hrest'
      exact ⟨hc, a :: b :: d :: e :: f :: pre', by simp [hpre]⟩

theorem new_calls_append (s t : Run σ) (ext : List Event) (h : t.trace = s.trace ++ ext) :
    new_calls s t = ext := by
  unfold new_calls; rw [h]; exact List.drop_left _ _

/-- The calls a run of the loop adds have the shape `LoopShape`. -/
theorem comp_loop_new_calls (V : Verbs σ) (ida cq channel : Nat) (fuel : Nat) (wc : ibv_wc)
    (s : Run σ) :
    LoopShape ida cq channel (comp_loop V ida cq channel fuel wc s).out
      (new_calls s (comp_loop V ida cq channel fuel wc s).st) := by
  obtain ⟨ext, htr, hshape⟩ := comp_loop_shape V ida cq channel fuel wc s
  rw [new_calls_append _ _ _ htr]; exact hshape

/-- The loop returns after the second poll when that poll finds something. -/
theorem comp_loop_second_poll (V : Verbs σ) (ida cq channel : Nat) (fuel : Nat) (wc : ibv_wc)
    (s : Run σ) (h1 : (first_poll V cq wc s).1 = 0) (h2 : (arm V cq wc s).1 = 0)
    (h3 : 0 < (second_poll V cq wc s).1) :
    comp_loop V ida cq channel (fuel + 1) wc s
      = ⟨Outcome.returned (second_poll V cq wc s).1, (second_poll V cq wc s).2.1,
          ⟨(second_poll V cq wc s).2.2,
            s.trace ++ [Event.poll_cq cq 1 0, Event.req_notify_cq cq 0 0,
              Event.poll_cq cq 1 (second_poll V cq wc s).1]⟩⟩ := by
  unfold first_poll at h1
  unfold arm first_poll at h2
  unfold second_poll arm first_poll at h3
  have h3' := ne_of_gt h3
  have h3'' := not_lt.mpr (le_of_lt h3)
  simp [comp_loop, call_poll_cq, call_req_notify_cq, comp_return, second_poll, arm, first_poll,
    h1, h2, h3', h3'']

/-- The loop returns after the first poll when that poll finds something. -/
theorem comp_loop_first_poll (V : Verbs σ) (ida cq channel : Nat) (fuel : Nat) (wc : ibv_wc)
    (s : Run σ) (h : 0 < (first_poll V cq wc s).1) :
    comp_loop V ida cq channel (fuel + 1) wc s
      = ⟨Outcome.returned (first_poll V cq wc s).1, (first_poll V cq wc s).2.1,
          ⟨(first_poll V cq wc s).2.2,
            s.trace ++ [Event.poll_cq cq 1 (first_poll V cq wc s).1]⟩⟩ := by
  unfold first_poll at h
  have h' := ne_of_gt h
  have h'' := not_lt.mpr (le_of_lt h)
  simp [comp_loop, call_poll_cq, comp_return, first_poll, h', h'']

/-- Once a run of the loop has ended, one more iteration allowed gives the same run. -/
theorem comp_loop_fuel_succ (V : Verbs σ) (ida cq channel : Nat) (fuel : Nat) (wc : ibv_wc)
    (s : Run σ) (h : (comp_loop V ida cq channel fuel wc s).out ≠ Outcome.running) :
    comp_loop V ida cq channel (fuel + 1) wc s = comp_loop V ida cq channel fuel wc s := by
  induction fuel generalizing wc s with
  | zero => exact absurd rfl h
  | succ k ih =>
    rw [comp_loop.eq_2 V ida cq channel wc s k] at h
    rw [comp_loop.eq_2 V ida cq channel wc s (k + 1), comp_loop.eq_2 V ida cq channel wc s k]
    simp only at h ⊢
    split_ifs at h ⊢ <;> first | rfl | exact ih _ _ h

/-- Once a run of the loop has ended, any larger iteration bound gives the same run. -/
theorem comp_loop_fuel_mono (V : Verbs σ) (ida cq channel : Nat) (fuel k : Nat) (wc : ibv_wc)
    (s : Run σ) (h : (comp_loop V ida cq channel fuel wc s).out ≠ Outcome.running) :
    comp_loop V ida cq channel (fuel + k) wc s = comp_loop V ida cq channel fuel wc s := by
  induction k with
  | zero => rfl
  | succ j ih =>
    rw [← Nat.add_assoc, comp_loop_fuel_succ V ida cq channel (fuel + j) wc s (by rw [ih]; exact h),
      ih]

/-- The result of `rdma_get_send_comp` does not depend on the iteration bound
once the bound is large enough for the run to end. -/
theorem rdma_get_send_comp_fuel_mono (V : Verbs σ) (id : rdma_cm_id) (fuel k : Nat)
    (wc : ibv_wc) (s : Run σ)
    (h : (rdma_get_send_comp V id fuel wc s).out ≠ Outcome.running) :
    rdma_get_send_comp V id (fuel + k) wc s = rdma_get_send_comp V id fuel wc s := by
  rw [rdma_get_send_comp_eq_loop] at h
  rw [rdma_get_send_comp_eq_loop, rdma_get_send_comp_eq_loop]
  exact comp_loop_fuel_mono V _ _ _ fuel k wc s h

/-- The result of `rdma_get_recv_comp` does not depend on the iteration bound
once the bound is large enough for the run to end. -/
theorem rdma_get_recv_comp_fuel_mono (V : Verbs σ) (id : rdma_cm_id) (fuel k : Nat)
    (wc : ibv_wc) (s : Run σ)
    (h : (rdma_get_recv_comp V id fuel wc s).out ≠ Outcome.running) :
    rdma_get_recv_comp V id (fuel + k) wc s = rdma_get_recv_comp V id fuel wc s := by
  rw [rdma_get_recv_comp_eq_loop] at h
  rw [rdma_get_recv_comp_eq_loop, rdma_get_recv_comp_eq_loop]
  exact comp_loop_fuel_mono V _ _ _ fuel k wc s h

/-- C1 (arm, then poll again, then wait): in every run of `rdma_get_send_comp`
and of `rdma_get_recv_comp`, whatever the library calls return and however many
iterations are made, each wait on the event channel is on the endpoint's channel
and follows directly a successful notification request on the same completion
queue (with `solicited_only = 0`) and a poll of that queue that found nothing.
Hence, when the first poll finds nothing, the request succeeds and the poll made
after it finds a completion, the retriever returns that poll's count and
completion after exactly these three calls, without a wait; in the first-in
first-out model, a completion that lands between the first poll and the arm
request is the one returned. -/
theorem C1_wait_only_after_arm_and_empty_poll (V : Verbs σ) (id : rdma_cm_id) (fuel : Nat)
    (wc : ibv_wc) (s : Run σ) :
    WaitsArmed id.send_cq id.send_cq_channel
        (new_calls s (rdma_get_send_comp V id fuel wc s).st) ∧
    WaitsArmed id.recv_cq id.recv_cq_channel
        (new_calls s (rdma_get_recv_comp V id fuel wc s).st) ∧
    ((first_poll V id.send_cq wc s).1 = 0 → (arm V id.send_cq wc s).1 = 0 →
      0 < (second_poll V id.send_cq wc s).1 →
      rdma_get_send_comp V id (fuel + 1) wc s
        = ⟨Outcome.returned (second_poll V id.send_cq wc s).1,
            (second_poll V id.send_cq wc s).2.1,
            ⟨(second_poll V id.send_cq wc s).2.2,
              s.trace ++ [Event.poll_cq id.send_cq 1 0, Event.req_notify_cq id.send_cq 0 0,
                Event.poll_cq id.send_cq 1 (second_poll V id.send_cq wc s).1]⟩⟩) ∧
    ((first_poll V id.recv_cq wc s).1 = 0 → (arm V id.recv_cq wc s).1 = 0 →
      0 < (second_poll V id.recv_cq wc s).1 →
      rdma_get_recv_comp V id (fuel + 1) wc s
        = ⟨Outcome.returned (second_poll V id.recv_cq wc s).1,
            (second_poll V id.recv_cq wc s).2.1,
            ⟨(second_poll V id.recv_cq wc s).2.2,
              s.trace ++ [Event.poll_cq id.recv_cq 1 0, Event.req_notify_cq id.recv_cq 0 0,
                Event.poll_cq id.recv_cq 1 (second_poll V id.recv_cq wc s).1]⟩⟩) ∧
    (∀ (w : ibv_wc) (l : List ibv_wc) (armed : Bool) (ev : Nat) (e : Int) (t : List Event),
      rdma_get_send_comp (fifo id) id (fuel + 1) wc ⟨⟨e, ⟨[], w :: l, armed, ev⟩⟩, t⟩
        = ⟨Outcome.returned 1, w, ⟨⟨e, ⟨l, [], true, ev⟩⟩,
            t ++ [Event.poll_cq id.send_cq 1 0, Event.req_notify_cq id.send_cq 0 0,
              Event.poll_cq id.send_cq 1 1]⟩⟩) := by
  refine ⟨?_, ?_, ?_, ?_, ?_⟩
  · rw [rdma_get_send_comp_eq_loop]
    exact (comp_loop_new_calls V id.addr id.send_cq id.send_cq_channel fuel wc s).waits_armed
  · rw [rdma_get_recv_comp_eq_loop]
    exact (comp_loop_new_calls V id.addr id.recv_cq id.recv_cq_channel fuel wc s).waits_armed
  · intro h1 h2 h3
    rw [rdma_get_send_comp_eq_loop]
    exact comp_loop_second_poll V _ _ _ fuel wc s h1 h2 h3
  · intro h1 h2 h3
    rw [rdma_get_recv_comp_eq_loop]
    exact comp_loop_second_poll V _ _ _ fuel wc s h1 h2 h3
  · intro w l armed ev e t
    rw [rdma_get_send_comp_eq_loop]
    rw [comp_loop_second_poll (fifo id) _ _ _ fuel wc ⟨⟨e, ⟨[], w :: l, armed, ev⟩⟩, t⟩
      (by simp [first_poll, fifo]) (by simp [arm, first_poll, fifo])
      (by simp [second_poll, arm, first_poll, fifo])]
    simp [second_poll, arm, first_poll, fifo]

/-- C1 at concrete inputs: a scripted run that waits once (empty poll, arm, empty
poll, wake-up, acknowledgment, completion), and the first-in first-out queue on
which completion 9 lands between the first poll and the arm request. -/
theorem C1_wait_only_after_arm_and_empty_poll_witness :
    WaitsArmed 30 31
      [Event.poll_cq 30 1 0, Event.req_notify_cq 30 0 0, Event.poll_cq 30 1 0,
        Event.get_cq_event 31 0 30 1000, Event.ack_cq_events 30 1, Event.poll_cq 30 1 1] ∧
    rdma_get_send_comp (fifo ep) ep 1 ⟨0, 0, 0⟩ (start ⟨[], [⟨9, 0, 0⟩], false, 0⟩)
      = ⟨Outcome.returned 1, ⟨9, 0, 0⟩, ⟨⟨0, ⟨[], [], true, 0⟩⟩,
          [Event.poll_cq 30 1 0, Event.req_notify_cq 30 0 0, Event.poll_cq 30 1 1]⟩⟩ :=
  ⟨(C1_wait_only_after_arm_and_empty_poll scripted ep 5 ⟨0, 0, 0⟩
      (start [Reply.of_ret 0, Reply.of_ret 0, Reply.of_ret 0, Reply.woken 30 1000,
        Reply.completion ⟨7, 0, 0⟩])).1,
   (C1_wait_only_after_arm_and_empty_poll (fifo ep) ep 0 ⟨0, 0, 0⟩
      (start ⟨[], [⟨9, 0, 0⟩], false, 0⟩)).2.2.1 (by decide) (by decide) (by decide)⟩

/-- A loop trace is empty (the bound is used up) or starts with a poll of the queue. -/
theorem LoopShape.starts_with_poll {ida cq ch : Nat} {out : Outcome} {ext : List Event}
    (h : LoopShape ida cq ch out ext) :
    (ext = [] ∧ out = Outcome.running) ∨ ∃ r rest, ext = Event.poll_cq cq 1 r :: rest := by
  cases h with
  | bound => exact Or.inl ⟨rfl, rfl⟩
  | first_poll r hr => exact Or.inr ⟨_, _, rfl⟩
  | arm_failed r hr => exact Or.inr ⟨_, _, rfl⟩
  | second_poll r hr => exact Or.inr ⟨_, _, rfl⟩
  | wait_failed r c x hr => exact Or.inr ⟨_, _, rfl⟩
  | mismatch c x hm => exact Or.inr ⟨_, _, rfl⟩
  | iteration out0 rest hrest => exact Or.inr ⟨_, _, rfl⟩

/-- In a loop trace a notification request that fails is the last call, and the
loop returns `-1`. -/
theorem LoopShape.arm_fatal {ida cq ch : Nat} {out : Outcome} {ext : List Event}
    (h : LoopShape ida cq ch out ext) :
    ∀ pre c so r post, ext = pre ++ Event.req_notify_cq c so r :: post → r ≠ 0 →
      post = [] ∧ out = Outcome.returned (-1) := by
  induction h with
  | bound => intro pre c so r post h; simp at h
  | first_poll r0 hr =>
    intro pre c so r post h
    rcases pre with _ | ⟨a, _ | ⟨b, pre⟩⟩ <;> simp at h
  | arm_failed r0 hr =>
    intro pre c so r post h hne
    rcases pre with _ | ⟨a, _ | ⟨b, _ | ⟨d, pre⟩⟩⟩ <;> simp at h
    exact ⟨h.2.2, rfl⟩
  | second_poll r0 hr =>
    intro pre c so r post h hne
    rcases pre with _ | ⟨a, _ | ⟨b, _ | ⟨d, _ | ⟨e, pre⟩⟩⟩⟩ <;> simp at h
    exact absurd h.2.1.2.2.symm hne
  | wait_failed r0 c0 x0 hr =>
    intro pre c so r post h hne
    rcases pre with _ | ⟨a, _ | ⟨b, _ | ⟨d, _ | ⟨e, _ | ⟨f, pre⟩⟩⟩⟩⟩ <;> simp at h
    exact absurd h.2.1.2.2.symm hne
  | mismatch c0 x0 hm =>
    intro pre c so r post h hne
    rcases pre with _ | ⟨a, _ | ⟨b, _ | ⟨d, _ | ⟨e, _ | ⟨f, pre⟩⟩⟩⟩⟩ <;> simp at h
    exact absurd h.2.1.2.2.symm hne
  | iteration out0 rest hrest ih =>
    intro pre c so r post h hne
    rcases pre with _ | ⟨a, _ | ⟨b, _ | ⟨d, _ | ⟨e, _ | ⟨f, pre⟩⟩⟩⟩⟩ <;> simp at h
    · exact absurd h.2.1.2.2.symm hne
    · exact ih pre c so r post h.2.2.2.2.2 hne

/-- In a loop trace a wait that fails is the last call, and the loop returns the
value the wait returned. -/
theorem LoopShape.wait_fatal {ida cq ch : Nat} {out : Outcome} {ext : List Event}
    (h : LoopShape ida cq ch out ext) :
    ∀ pre c r q x post, ext = pre ++ Event.get_cq_event c r q x :: post → r ≠ 0 →
      post = [] ∧ out = Outcome.returned r := by
  induction h with
  | bound => intro pre c r q x post h; simp at h
  | first_poll r0 hr =>
    intro pre c r q x post h
    rcases pre with _ | ⟨a, _ | ⟨b, pre⟩⟩ <;> simp at h
  | arm_failed r0 hr =>
    intro pre c r q x post h
    rcases pre with _ | ⟨a, _ | ⟨b, _ | ⟨d, pre⟩⟩⟩ <;> simp at h
  | second_poll r0 hr =>
    intro pre c r q x post h
    rcases pre with _ | ⟨a, _ | ⟨b, _ | ⟨d, _ | ⟨e, pre⟩⟩⟩⟩ <;> simp at h
  | wait_failed r0 c0 x0 hr =>
    intro pre c r q x post h hne
    rcases pre with _ | ⟨a, _ | ⟨b, _ | ⟨d, _ | ⟨e, pre⟩⟩⟩⟩ <;> simp at h
    obtain ⟨-, -, -, hw, hpost⟩ := h
    exact ⟨hpost, by rw [hw.2.1]⟩
  | mismatch c0 x0 hm =>
    intro pre c r q x post h hne
    rcases pre with _ | ⟨a, _ | ⟨b, _ | ⟨d, _ | ⟨e, pre⟩⟩⟩⟩ <;> simp at h
    exact absurd h.2.2.2.1.2.1.symm hne
  | iteration out0 rest hrest ih =>
    intro pre c r q x post h hne
    rcases pre with _ | ⟨a, _ | ⟨b, _ | ⟨d, _ | ⟨e, _ | ⟨f, pre⟩⟩⟩⟩⟩ <;> simp at h
    · exact absurd h.2.2.2.1.2.1.symm hne
    · exact ih pre c r q x post h.2.2.2.2.2 hne

/-- In a loop trace, a wake-up with a queue or context other than the expected
one is the last call and the run is aborted; a wake-up with the expected ones is
followed by the acknowledgment of one event, after which the loop polls again
(unless the iteration bound stops it). -/
theorem LoopShape.wake_checked {ida cq ch : Nat} {out : Outcome} {ext : List Event}
    (h : LoopShape ida cq ch out ext) :
    ∀ pre c q x post, ext = pre ++ Event.get_cq_event c 0 q x :: post →
      (¬ (q = cq ∧ x = ida) → post = [] ∧ out = Outcome.aborted) ∧
      ((q = cq ∧ x = ida) → ∃ rest, post = Event.ack_cq_events cq 1 :: rest ∧
        ((rest = [] ∧ out = Outcome.running) ∨ ∃ r rest', rest = Event.poll_cq cq 1 r :: rest')) := by
  induction h with
  | bound => intro pre c q x post h; simp at h
  | first_poll r0 hr =>
    intro pre c q x post h
    rcases pre with _ | ⟨a, _ | ⟨b, pre⟩⟩ <;> simp at h
  | arm_failed r0 hr =>
    intro pre c q x post h
    rcases pre with _ | ⟨a, _ | ⟨b, _ | ⟨d, pre⟩⟩⟩ <;> simp at h
  | second_poll r0 hr =>
    intro pre c q x post h
    rcases pre with _ | ⟨a, _ | ⟨b, _ | ⟨d, _ | ⟨e, pre⟩⟩⟩⟩ <;> simp at h
  | wait_failed r0 c0 x0 hr =>
    intro pre c q x post h
    rcases pre with _ | ⟨a, _ | ⟨b, _ | ⟨d, _ | ⟨e, pre⟩⟩⟩⟩ <;> simp at h
    exact absurd h.2.2.2.1.2.1 hr
  | mismatch c0 x0 hm =>
    intro pre c q x post h
    rcases pre with _ | ⟨a, _ | ⟨b, _ | ⟨d, _ | ⟨e, pre⟩⟩⟩⟩ <;> simp at h
    obtain ⟨-, -, -, ⟨-, hq, hx⟩, hpost⟩ := h
    subst hq hx
    exact ⟨fun _ => ⟨hpost, rfl⟩, fun hok => absurd hok hm⟩
  | iteration out0 rest hrest ih =>
    intro pre c q x post h
    rcases pre with _ | ⟨a, _ | ⟨b, _ | ⟨d, _ | ⟨e, _ | ⟨f, pre⟩⟩⟩⟩⟩ <;> simp at h
    · obtain ⟨-, -, -, ⟨-, hq, hx⟩, hpost⟩ := h
      subst hq hx
      refine ⟨fun hbad => absurd ⟨rfl, rfl⟩ hbad, fun _ => ⟨rest, hpost.symm, ?_⟩⟩
      exact hrest.starts_with_poll
    · exact ih pre c q x post h.2.2.2.2.2

/-- In a loop trace of a run that is not aborted, every acknowledgment is for one
event of the queue, and there are as many of them as successful waits. -/
theorem LoopShape.acks_match_waits {ida cq ch : Nat} {out : Outcome} {ext : List Event}
    (h : LoopShape ida cq ch out ext) (hout : out ≠ Outcome.aborted) :
    events_acked cq ext = waits_succeeded ext ∧ ack_calls ext = waits_succeeded ext ∧
      ∀ c k, Event.ack_cq_events c k ∈ ext → c = cq ∧ k = 1 := by
  induction h with
  | bound => simp [events_acked, waits_succeeded, ack_calls]
  | first_poll r0 hr => simp [events_acked, waits_succeeded, ack_calls]
  | arm_failed r0 hr => simp [events_acked, waits_succeeded, ack_calls]
  | second_poll r0 hr => simp [events_acked, waits_succeeded, ack_calls]
  | wait_failed r0 c0 x0 hr => simp [events_acked, waits_succeeded, ack_calls, hr]
  | mismatch c0 x0 hm => exact absurd rfl hout
  | iteration out0 rest hrest ih =>
    obtain ⟨h1, h2, h3⟩ := ih hout
    refine ⟨by simp [events_acked, waits_succeeded, h1], by simp [ack_calls, waits_succeeded, h2],
      ?_⟩
    intro c k hmem
    simp at hmem
    rcases hmem with hmem | hmem
    · exact hmem
    · exact h3 c k hmem

/-- C2 (polling fast path): when the first poll of the endpoint's completion
queue (one entry requested) finds a completion, `rdma_get_send_comp` and
`rdma_get_recv_comp` return that poll's count with the completion the poll
wrote in `wc`; that poll is the only library call made (no notification
request, no wait, no acknowledgment) and `errno` is as the poll left it. -/
theorem C2_polling_fast_path (V : Verbs σ) (id : rdma_cm_id) (fuel : Nat) (wc : ibv_wc)
    (s : Run σ) :
    (0 < (first_poll V id.send_cq wc s).1 →
      rdma_get_send_comp V id (fuel + 1) wc s
        = ⟨Outcome.returned (first_poll V id.send_cq wc s).1, (first_poll V id.send_cq wc s).2.1,
            ⟨(first_poll V id.send_cq wc s).2.2,
              s.trace ++ [Event.poll_cq id.send_cq 1 (first_poll V id.send_cq wc s).1]⟩⟩) ∧
    (0 < (first_poll V id.recv_cq wc s).1 →
      rdma_get_recv_comp V id (fuel + 1) wc s
        = ⟨Outcome.returned (first_poll V id.recv_cq wc s).1, (first_poll V id.recv_cq wc s).2.1,
            ⟨(first_poll V id.recv_cq wc s).2.2,
              s.trace ++ [Event.poll_cq id.recv_cq 1 (first_poll V id.recv_cq wc s).1]⟩⟩) := by
  constructor
  · intro h
    rw [rdma_get_send_comp_eq_loop]
    exact comp_loop_first_poll V _ _ _ fuel wc s h
  · intro h
    rw [rdma_get_recv_comp_eq_loop]
    exact comp_loop_first_poll V _ _ _ fuel wc s h

/-- C2 at concrete inputs: completion 5 waits on the send queue of the first-in
first-out model; the script hands completion 6 to the first receive poll. -/
theorem C2_polling_fast_path_witness :
    rdma_get_send_comp (fifo ep) ep 1 ⟨0, 0, 0⟩ (start ⟨[⟨5, 0, 0⟩], [], false, 0⟩)
      = ⟨Outcome.returned 1, ⟨5, 0, 0⟩, ⟨⟨0, ⟨[], [], false, 0⟩⟩, [Event.poll_cq 30 1 1]⟩⟩ ∧
    rdma_get_recv_comp scripted ep 1 ⟨0, 0, 0⟩ (start [Reply.completion ⟨6, 0, 4⟩])
      = ⟨Outcome.returned 1, ⟨6, 0, 4⟩, ⟨⟨0, []⟩, [Event.poll_cq 40 1 1]⟩⟩ :=
  ⟨(C2_polling_fast_path (fifo ep) ep 0 ⟨0, 0, 0⟩ (start ⟨[⟨5, 0, 0⟩], [], false, 0⟩)).1
      (by decide),
   (C2_polling_fast_path scripted ep 0 ⟨0, 0, 0⟩ (start [Reply.completion ⟨6, 0, 4⟩])).2
      (by decide)⟩

/-- C4 (failure of the arm request or of the wait): in every run of
`rdma_get_send_comp` and of `rdma_get_recv_comp`, a notification request or an
event-channel wait that returns a negative value is the last library call of
the run (no further poll, wait or acknowledgment), and the retriever returns a
negative value: `-1` after the request, the wait's own value after the wait. -/
theorem C4_arm_or_wait_failure_is_fatal (V : Verbs σ) (id : rdma_cm_id) (fuel : Nat)
    (wc : ibv_wc) (s : Run σ) :
    FailureIsFatal (new_calls s (rdma_get_send_comp V id fuel wc s).st)
        (rdma_get_send_comp V id fuel wc s).out ∧
    FailureIsFatal (new_calls s (rdma_get_recv_comp V id fuel wc s).st)
        (rdma_get_recv_comp V id fuel wc s).out := by
  constructor
  · rw [rdma_get_send_comp_eq_loop]
    have h := comp_loop_new_calls V id.addr id.send_cq id.send_cq_channel fuel wc s
    exact ⟨fun pre c so r post e hr => h.arm_fatal pre c so r post e (ne_of_lt hr),
      fun pre c r q x post e hr => h.wait_fatal pre c r q x post e (ne_of_lt hr)⟩
  · rw [rdma_get_recv_comp_eq_loop]
    have h := comp_loop_new_calls V id.addr id.recv_cq id.recv_cq_channel fuel wc s
    exact ⟨fun pre c so r post e hr => h.arm_fatal pre c so r post e (ne_of_lt hr),
      fun pre c r q x post e hr => h.wait_fatal pre c r q x post e (ne_of_lt hr)⟩

/-- C4 at concrete inputs: the arm request of a send retrieval returns `-5`, and
the wait of a receive retrieval returns `-1`; each is the last call made. -/
theorem C4_arm_or_wait_failure_is_fatal_witness :
    (rdma_get_send_comp scripted ep 3 ⟨0, 0, 0⟩
        (start [Reply.of_ret 0, Reply.of_ret (-5), Reply.completion ⟨1, 0, 0⟩])).out
        = Outcome.returned (-1) ∧
    (rdma_get_recv_comp scripted ep 3 ⟨0, 0, 0⟩
        (start [Reply.of_ret 0, Reply.of_ret 0, Reply.of_ret 0, Reply.of_ret (-1),
          Reply.completion ⟨1, 0, 0⟩])).out = Outcome.returned (-1) :=
  ⟨((C4_arm_or_wait_failure_is_fatal scripted ep 3 ⟨0, 0, 0⟩
      (start [Reply.of_ret 0, Reply.of_ret (-5), Reply.completion ⟨1, 0, 0⟩])).1.1
      [Event.poll_cq 30 1 0] 30 0 (-5) [] (by decide) (by decide)).2,
   ((C4_arm_or_wait_failure_is_fatal scripted ep 3 ⟨0, 0, 0⟩
      (start [Reply.of_ret 0, Reply.of_ret 0, Reply.of_ret 0, Reply.of_ret (-1),
        Reply.completion ⟨1, 0, 0⟩])).2.2
      [Event.poll_cq 40 1 0, Event.req_notify_cq 40 0 0, Event.poll_cq 40 1 0] 41 (-1) 0 0 []
      (by decide) (by decide)).2⟩

/-- C6 (validation of the wake-up): in every run of `rdma_get_send_comp` (resp.
`rdma_get_recv_comp`), a successful wait that delivers a queue other than the
endpoint's send (resp. receive) completion queue, or a context other than the
endpoint, is the last library call and the run is aborted by the assertion: no
acknowledgment, no further poll, nothing returned.  When both match, the next
call acknowledges one event on the queue and the loop polls again. -/
theorem C6_wake_up_is_validated (V : Verbs σ) (id : rdma_cm_id) (fuel : Nat) (wc : ibv_wc)
    (s : Run σ) :
    WakeChecked id.addr id.send_cq (new_calls s (rdma_get_send_comp V id fuel wc s).st)
        (rdma_get_send_comp V id fuel wc s).out ∧
    WakeChecked id.addr id.recv_cq (new_calls s (rdma_get_recv_comp V id fuel wc s).st)
        (rdma_get_recv_comp V id fuel wc s).out := by
  constructor
  · rw [rdma_get_send_comp_eq_loop]
    exact (comp_loop_new_calls V id.addr id.send_cq id.send_cq_channel fuel wc s).wake_checked
  · rw [rdma_get_recv_comp_eq_loop]
    exact (comp_loop_new_calls V id.addr id.recv_cq id.recv_cq_channel fuel wc s).wake_checked

/-- C6 at concrete inputs: a send retrieval woken with the receive queue `40`
instead of the send queue `30` is aborted right after the wait; a receive
retrieval woken with its own queue and endpoint acknowledges and polls again. -/
theorem C6_wake_up_is_validated_witness :
    (rdma_get_send_comp scripted ep 3 ⟨0, 0, 0⟩
        (start [Reply.of_ret 0, Reply.of_ret 0, Reply.of_ret 0, Reply.woken 40 1000,
          Reply.completion ⟨1, 0, 0⟩])).out = Outcome.aborted ∧
    (∃ rest, [Event.ack_cq_events 40 1, Event.poll_cq 40 1 1]
        = Event.ack_cq_events 40 1 :: rest ∧
      ((rest = [] ∧
          (rdma_get_recv_comp scripted ep 3 ⟨0, 0, 0⟩
            (start [Reply.of_ret 0, Reply.of_ret 0, Reply.of_ret 0, Reply.woken 40 1000,
              Reply.completion ⟨1, 0, 0⟩])).out = Outcome.running) ∨
        ∃ r rest', rest = Event.poll_cq 40 1 r :: rest')) :=
  ⟨(((C6_wake_up_is_validated scripted ep 3 ⟨0, 0, 0⟩
      (start [Reply.of_ret 0, Reply.of_ret 0, Reply.of_ret 0, Reply.woken 40 1000,
        Reply.completion ⟨1, 0, 0⟩])).1
      [Event.poll_cq 30 1 0, Event.req_notify_cq 30 0 0, Event.poll_cq 30 1 0] 31 40 1000 []
      (by decide)).1 (by decide)).2,
   ((C6_wake_up_is_validated scripted ep 3 ⟨0, 0, 0⟩
      (start [Reply.of_ret 0, Reply.of_ret 0, Reply.of_ret 0, Reply.woken 40 1000,
        Reply.completion ⟨1, 0, 0⟩])).2
      [Event.poll_cq 40 1 0, Event.req_notify_cq 40 0 0, Event.poll_cq 40 1 0] 41 40 1000
      [Event.ack_cq_events 40 1, Event.poll_cq 40 1 1] (by decide)).2 (by decide)⟩

/-- C7 (acknowledgment accounting): in every run of `rdma_get_send_comp` and of
`rdma_get_recv_comp` that returns to the caller, each acknowledgment is for one
event of the endpoint's completion queue, and the number of acknowledgments (and
of events acknowledged) equals the number of waits that succeeded during the
call, whatever the polls found. -/
theorem C7_one_acknowledgment_per_wake_up (V : Verbs σ) (id : rdma_cm_id) (fuel : Nat)
    (wc : ibv_wc) (s : Run σ) (v : Int) :
    ((rdma_get_send_comp V id fuel wc s).out = Outcome.returned v →
      events_acked id.send_cq (new_calls s (rdma_get_send_comp V id fuel wc s).st)
        = waits_succeeded (new_calls s (rdma_get_send_comp V id fuel wc s).st) ∧
      ack_calls (new_calls s (rdma_get_send_comp V id fuel wc s).st)
        = waits_succeeded (new_calls s (rdma_get_send_comp V id fuel wc s).st) ∧
      ∀ c k, Event.ack_cq_events c k ∈ new_calls s (rdma_get_send_comp V id fuel wc s).st →
        c = id.send_cq ∧ k = 1) ∧
    ((rdma_get_recv_comp V id fuel wc s).out = Outcome.returned v →
      events_acked id.recv_cq (new_calls s (rdma_get_recv_comp V id fuel wc s).st)
        = waits_succeeded (new_calls s (rdma_get_recv_comp V id fuel wc s).st) ∧
      ack_calls (new_calls s (rdma_get_recv_comp V id fuel wc s).st)
        = waits_succeeded (new_calls s (rdma_get_recv_comp V id fuel wc s).st) ∧
      ∀ c k, Event.ack_cq_events c k ∈ new_calls s (rdma_get_recv_comp V id fuel wc s).st →
        c = id.recv_cq ∧ k = 1) := by
  constructor
  · intro hv
    rw [rdma_get_send_comp_eq_loop] at hv ⊢
    exact (comp_loop_new_calls V id.addr id.send_cq id.send_cq_channel fuel wc s).acks_match_waits
      (by rw [hv]; exact fun h => Outcome.noConfusion h)
  · intro hv
    rw [rdma_get_recv_comp_eq_loop] at hv ⊢
    exact (comp_loop_new_calls V id.addr id.recv_cq id.recv_cq_channel fuel wc s).acks_match_waits
      (by rw [hv]; exact fun h => Outcome.noConfusion h)

/-- C7 at a concrete input: a send retrieval that is woken twice and then finds
completion 7 returns 1 after two acknowledgments of one event each. -/
theorem C7_one_acknowledgment_per_wake_up_witness :
    (rdma_get_send_comp scripted ep 3 ⟨0, 0, 0⟩ (start two_wakes)).out = Outcome.returned 1 ∧
    events_acked 30 (new_calls (start two_wakes)
        (rdma_get_send_comp scripted ep 3 ⟨0, 0, 0⟩ (start two_wakes)).st) = 2 ∧
    waits_succeeded (new_calls (start two_wakes)
        (rdma_get_send_comp scripted ep 3 ⟨0, 0, 0⟩ (start two_wakes)).st) = 2 ∧
    ack_calls (new_calls (start two_wakes)
        (rdma_get_send_comp scripted ep 3 ⟨0, 0, 0⟩ (start two_wakes)).st)
      = waits_succeeded (new_calls (start two_wakes)
        (rdma_get_send_comp scripted ep 3 ⟨0, 0, 0⟩ (start two_wakes)).st) :=
  ⟨by decide, by decide, by decide,
    ((C7_one_acknowledgment_per_wake_up scripted ep 3 ⟨0, 0, 0⟩ (start two_wakes) 1).1
      (by decide)).2.1⟩

theorem fifo_post_sendv (id : rdma_cm_id) (c : Nat) (sgl : List ibv_sge) (n flags : Int)
    (s : Run Fifo) :
    (rdma_post_sendv (fifo id) id c sgl n flags s).ret = 0 ∧
    (rdma_post_sendv (fifo id) id c sgl n flags s).st.proc.env.cq
      = s.proc.env.cq ++ [⟨c, 0, 0⟩] := by
  simp [rdma_post_sendv, call_post_send, fifo, rdma_seterrno]

theorem fifo_post_sends (id : rdma_cm_id) (sgl : List ibv_sge) (flags : Int) (cs : List Nat)
    (s : Run Fifo) :
    (post_sends (fifo id) id sgl flags cs s).1 = cs.map (fun _ => 0) ∧
    (post_sends (fifo id) id sgl flags cs s).2.proc.env.cq
      = s.proc.env.cq ++ cs.map (fun c => ⟨c, 0, 0⟩) := by
  induction cs generalizing s with
  | nil => simp [post_sends]
  | cons c cs ih =>
    obtain ⟨h1, h2⟩ := fifo_post_sendv id c sgl (sgl.length : Int) flags s
    obtain ⟨i1, i2⟩ := ih (rdma_post_sendv (fifo id) id c sgl (sgl.length : Int) flags s).st
    simp only [post_sends, List.map_cons]
    exact ⟨by rw [h1, i1], by rw [i2, h2]; simp⟩

theorem fifo_get_head (id : rdma_cm_id) (fuel : Nat) (wc w : ibv_wc) (rest : List ibv_wc)
    (s : Run Fifo) (h : s.proc.env.cq = w :: rest) :
    (rdma_get_send_comp (fifo id) id (fuel + 1) wc s).out = Outcome.returned 1 ∧
    (rdma_get_send_comp (fifo id) id (fuel + 1) wc s).wc = w ∧
    (rdma_get_send_comp (fifo id) id (fuel + 1) wc s).st.proc.env.cq = rest ∧
    new_calls s (rdma_get_send_comp (fifo id) id (fuel + 1) wc s).st
      = [Event.poll_cq id.send_cq 1 1] := by
  have hp : first_poll (fifo id) id.send_cq wc s
      = (1, w, ⟨s.proc.errno, ⟨rest, s.proc.env.late, s.proc.env.armed, s.proc.env.events⟩⟩) := by
    simp [first_poll, fifo, h]
  rw [rdma_get_send_comp_eq_loop,
    comp_loop_first_poll (fifo id) _ _ _ fuel wc s (by rw [hp]; exact Int.one_pos), hp]
  exact ⟨rfl, rfl, rfl, new_calls_append _ _ _ rfl⟩

theorem fifo_get_send_comps (id : rdma_cm_id) (fuel : Nat) (ws rest : List ibv_wc)
    (wc : ibv_wc) (s : Run Fifo) (h : s.proc.env.cq = ws ++ rest) :
    (get_send_comps (fifo id) id (fuel + 1) ws.length wc s).1
      = ws.map (fun w => (Outcome.returned 1, w.wr_id)) := by
  induction ws generalizing wc s with
  | nil => simp [get_send_comps]
  | cons w ws ih =>
    obtain ⟨h1, h2, h3, -⟩ := fifo_get_head id fuel wc w (ws ++ rest) s h
    simp only [List.length_cons, get_send_comps, List.map_cons]
    rw [ih _ _ h3, h1, h2]

/-- C3 (ordering, Scenario B): in the first-in first-out model of the send
completion queue, posting send work requests with the contexts `cs`, in order,
to an idle queue succeeds for each, and `cs.length` successive calls of
`rdma_get_send_comp` then each return 1 with the `wr_id` values equal to `cs`
in the order of submission; for the contexts 1, 2, 3 the values retrieved are
1, 2, 3. -/
theorem C3_completions_in_submission_order (id : rdma_cm_id) (cs : List Nat)
    (sgl : List ibv_sge) (flags : Int) (fuel : Nat) (wc : ibv_wc) (e : Int)
    (armed : Bool) (ev : Nat) (t : List Event) :
    (post_sends (fifo id) id sgl flags cs ⟨⟨e, ⟨[], [], armed, ev⟩⟩, t⟩).1
      = cs.map (fun _ => 0) ∧
    (get_send_comps (fifo id) id (fuel + 1) cs.length wc
        (post_sends (fifo id) id sgl flags cs ⟨⟨e, ⟨[], [], armed, ev⟩⟩, t⟩).2).1
      = cs.map (fun c => (Outcome.returned 1, c)) ∧
    (get_send_comps (fifo id) id (fuel + 1) 3 wc
        (post_sends (fifo id) id sgl flags [1, 2, 3] ⟨⟨e, ⟨[], [], armed, ev⟩⟩, t⟩).2).1
      = [(Outcome.returned 1, 1), (Outcome.returned 1, 2), (Outcome.returned 1, 3)] := by
  have key : ∀ l : List Nat,
      (get_send_comps (fifo id) id (fuel + 1) l.length wc
        (post_sends (fifo id) id sgl flags l ⟨⟨e, ⟨[], [], armed, ev⟩⟩, t⟩).2).1
      = l.map (fun c => (Outcome.returned 1, c)) := by
    intro l
    have hq := (fifo_post_sends id sgl flags l ⟨⟨e, ⟨[], [], armed, ev⟩⟩, t⟩).2
    have := fifo_get_send_comps id fuel (l.map (fun c => (⟨c, 0, 0⟩ : ibv_wc))) [] wc
      (post_sends (fifo id) id sgl flags l ⟨⟨e, ⟨[], [], armed, ev⟩⟩, t⟩).2 (by simpa using hq)
    simpa [List.map_map, Function.comp_def] using this
  exact ⟨(fifo_post_sends id sgl flags cs _).1, key cs, key [1, 2, 3]⟩

theorem seterrno_convention (u : Int × Proc σ) (t : List Event) :
    SeterrnoConvention u (rdma_seterrno u.1 ⟨u.2, t⟩) := by
  unfold SeterrnoConvention rdma_seterrno
  by_cases h : u.1 = 0
  · simp [h]
  · simp [h]

/-- C9 (documented return convention): `rdma_dereg_mr` and every posting
operation return 0 exactly when their library call (`ibv_dereg_mr`,
`ibv_post_srq_recv` or `ibv_post_recv`, `ibv_post_send`) returned 0, and then
leave `errno` as the call left it; otherwise they return `-1` with `errno` set
to the value the call returned.  The single-buffer forms follow it for the
one-entry request they build, `rdma_post_recv` whenever its assertion holds. -/
theorem C9_zero_or_minus_one_with_errno (V : Verbs σ) (id : rdma_cm_id) (context : Nat)
    (sgl : List ibv_sge) (nsge flags : Int) (remote_addr rkey : Nat) (addr length : Nat)
    (mr : ibv_mr) (omr : Option ibv_mr) (ah remote_qpn : Nat) (s : Run σ) :
    SeterrnoConvention (V.ibv_dereg_mr mr s.proc) (rdma_dereg_mr V mr s) ∧
    SeterrnoConvention
      (if id.srq ≠ 0 then V.ibv_post_srq_recv id.srq ⟨context, 0, sgl, nsge⟩ s.proc
        else V.ibv_post_recv id.qp ⟨context, 0, sgl, nsge⟩ s.proc)
      (rdma_post_recvv V id context sgl nsge s) ∧
    SeterrnoConvention
      (V.ibv_post_send id.qp
        ⟨context, 0, sgl, nsge, ibv_wr_opcode.IBV_WR_SEND, flags, send_wr_union.unset⟩ s.proc)
      (rdma_post_sendv V id context sgl nsge flags s) ∧
    SeterrnoConvention
      (V.ibv_post_send id.qp
        ⟨context, 0, sgl, nsge, ibv_wr_opcode.IBV_WR_RDMA_READ, flags,
          send_wr_union.rdma remote_addr rkey⟩ s.proc)
      (rdma_post_readv V id context sgl nsge flags remote_addr rkey s) ∧
    SeterrnoConvention
      (V.ibv_post_send id.qp
        ⟨context, 0, sgl, nsge, ibv_wr_opcode.IBV_WR_RDMA_WRITE, flags,
          send_wr_union.rdma remote_addr rkey⟩ s.proc)
      (rdma_post_writev V id context sgl nsge flags remote_addr rkey s) ∧
    SeterrnoConvention
      (V.ibv_post_send id.qp
        ⟨context, 0, [⟨addr, length % 2 ^ 32, lkey_or_zero omr⟩], 1,
          ibv_wr_opcode.IBV_WR_SEND, flags,
          send_wr_union.ud ah remote_qpn V.RDMA_UDP_QKEY⟩ s.proc)
      (rdma_post_ud_send V id context addr length omr flags ah remote_qpn s) ∧
    SeterrnoConvention
      (V.ibv_post_send id.qp
        ⟨context, 0, [⟨addr, length % 2 ^ 32, lkey_or_zero omr⟩], 1,
          ibv_wr_opcode.IBV_WR_SEND, flags, send_wr_union.unset⟩ s.proc)
      (rdma_post_send V id context addr length omr flags s) ∧
    SeterrnoConvention
      (V.ibv_post_send id.qp
        ⟨context, 0, [⟨addr, length % 2 ^ 32, mr.lkey⟩], 1,
          ibv_wr_opcode.IBV_WR_RDMA_READ, flags, send_wr_union.rdma remote_addr rkey⟩ s.proc)
      (rdma_post_read V id context addr length mr flags remote_addr rkey s) ∧
    SeterrnoConvention
      (V.ibv_post_send id.qp
        ⟨context, 0, [⟨addr, length % 2 ^ 32, lkey_or_zero omr⟩], 1,
          ibv_wr_opcode.IBV_WR_RDMA_WRITE, flags, send_wr_union.rdma remote_addr rkey⟩ s.proc)
      (rdma_post_write V id context addr length omr flags remote_addr rkey s) ∧
    (∀ r, (rdma_post_recv V id context addr length mr s).out = Outcome.returned r →
      SeterrnoConvention
        (if id.srq ≠ 0 then
          V.ibv_post_srq_recv id.srq ⟨context, 0, [⟨addr, length % 2 ^ 32, mr.lkey⟩], 1⟩ s.proc
          else V.ibv_post_recv id.qp ⟨context, 0, [⟨addr, length % 2 ^ 32, mr.lkey⟩], 1⟩ s.proc)
        ⟨r, (rdma_post_recv V id context addr length mr s).st⟩) := by
  have hrecvv : ∀ (l : List ibv_sge) (n : Int),
      SeterrnoConvention
        (if id.srq ≠ 0 then V.ibv_post_srq_recv id.srq ⟨context, 0, l, n⟩ s.proc
          else V.ibv_post_recv id.qp ⟨context, 0, l, n⟩ s.proc)
        (rdma_post_recvv V id context l n s) := by
    intro l n
    unfold rdma_post_recvv
    by_cases h : id.srq ≠ 0
    · simp only [if_pos h]
      exact seterrno_convention _ _
    · simp only [if_neg h]
      exact seterrno_convention _ _
  refine ⟨seterrno_convention _ _, hrecvv sgl nsge, seterrno_convention _ _,
    seterrno_convention _ _, seterrno_convention _ _, seterrno_convention _ _,
    seterrno_convention _ _, seterrno_convention _ _, seterrno_convention _ _, ?_⟩
  intro r hr
  unfold rdma_post_recv at hr ⊢
  by_cases h : addr ≥ mr.addr ∧ (addr + length) % 2 ^ 64 ≤ (mr.addr + mr.length) % 2 ^ 64
  · simp only [if_pos h] at hr ⊢
    have hr' : (rdma_post_recvv V id context [⟨addr, length % 2 ^ 32, mr.lkey⟩] 1 s).ret = r := by
      simpa using hr
    rw [← hr']
    exact hrecvv _ _
  · rw [if_neg h] at hr
    exact Outcome.noConfusion hr

/-- C9 at concrete inputs: a receive posted by `rdma_post_recv` inside its
region is accepted by the library and returns 0 with `errno` untouched; a
deregistration that fails with code 16 returns `-1` with `errno = 16`. -/
theorem C9_zero_or_minus_one_with_errno_witness :
    (rdma_post_recv scripted ep 7 4096 16 ⟨4096, 256, 5⟩ (start [Reply.of_ret 0])).out
      = Outcome.returned 0 ∧
    (rdma_post_recv scripted ep 7 4096 16 ⟨4096, 256, 5⟩ (start [Reply.of_ret 0])).st.proc
      = ⟨0, []⟩ ∧
    (rdma_dereg_mr scripted ⟨4096, 256, 5⟩ (start [Reply.of_ret 16])).ret = -1 ∧
    (rdma_dereg_mr scripted ⟨4096, 256, 5⟩ (start [Reply.of_ret 16])).st.proc.errno = 16 :=
  ⟨by decide,
   ((C9_zero_or_minus_one_with_errno scripted ep 7 [] 0 0 0 0 4096 16 ⟨4096, 256, 5⟩ none 0 0
      (start [Reply.of_ret 0])).2.2.2.2.2.2.2.2.2 0 (by decide)).2.1 (by decide),
   (((C9_zero_or_minus_one_with_errno scripted ep 7 [] 0 0 0 0 4096 16 ⟨4096, 256, 5⟩ none 0 0
      (start [Reply.of_ret 16])).1).2.2 (by decide)).1,
   (((C9_zero_or_minus_one_with_errno scripted ep 7 [] 0 0 0 0 4096 16 ⟨4096, 256, 5⟩ none 0 0
      (start [Reply.of_ret 16])).1).2.2 (by decide)).2.1⟩

/-- Where no pointer sum wraps (`addr + length` and `mr.addr + mr.length` stay
below `2 ^ 64`), `rdma_post_recv` makes a library call only if the range
`[addr, addr + length)` lies within the region, and a range that does not is
aborted by the assertion before any call. -/
theorem rdma_post_recv_checked_without_wrap (V : Verbs σ) (id : rdma_cm_id)
    (context addr length : Nat) (mr : ibv_mr) (s : Run σ)
    (ha : addr + length < 2 ^ 64) (hm : mr.addr + mr.length < 2 ^ 64) :
    (new_calls s (rdma_post_recv V id context addr length mr s).st ≠ [] →
      (mr.addr ≤ addr ∧ addr + length ≤ mr.addr + mr.length) ∧ RangeWithin addr length mr) ∧
    (∀ r, (rdma_post_recv V id context addr length mr s).out = Outcome.returned r →
      RangeWithin addr length mr) ∧
    (¬ RangeWithin addr length mr →
      rdma_post_recv V id context addr length mr s = ⟨Outcome.aborted, s⟩) := by
  have hin : (mr.addr ≤ addr ∧ addr + length ≤ mr.addr + mr.length) →
      RangeWithin addr length mr := by
    intro h b hb1 hb2
    exact ⟨le_trans h.1 hb1, lt_of_lt_of_le hb2 h.2⟩
  have hcond : (addr ≥ mr.addr ∧ (addr + length) % 2 ^ 64 ≤ (mr.addr + mr.length) % 2 ^ 64)
      ↔ (mr.addr ≤ addr ∧ addr + length ≤ mr.addr + mr.length) := by
    rw [Nat.mod_eq_of_lt ha, Nat.mod_eq_of_lt hm]
  by_cases h : addr ≥ mr.addr ∧ (addr + length) % 2 ^ 64 ≤ (mr.addr + mr.length) % 2 ^ 64
  · have h' := hcond.mp h
    exact ⟨fun _ => ⟨h', hin h'⟩, fun _ _ => hin h', fun hn => absurd (hin h') hn⟩
  · have hab : rdma_post_recv V id context addr length mr s = ⟨Outcome.aborted, s⟩ := by
      unfold rdma_post_recv; rw [if_neg h]
    refine ⟨fun hc => ?_, fun r hr => ?_, fun _ => hab⟩
    · rw [hab] at hc
      exact absurd (by simp [new_calls]) hc
    · rw [hab] at hr
      exact Outcome.noConfusion hr

/-- C10 (bounds enforcement for receives), evaluated where the code departs from
it: for `addr = 4096`, `length = 2 ^ 64 - 1` and a region of 256 bytes at 4096
the range is not within the region, yet the sum `addr + length` wraps to 4095,
the assertion holds, and `rdma_post_recv` submits an entry of `2 ^ 32 - 1`
bytes; the same region rejects 16 bytes that start 8 bytes before its end. -/
theorem C10_wrapped_range_is_submitted :
    ¬ RangeWithin 4096 18446744073709551615 ⟨4096, 256, 5⟩ ∧
    rdma_post_recv scripted ep 7 4096 18446744073709551615 ⟨4096, 256, 5⟩
        (start [Reply.of_ret 0])
      = ⟨Outcome.returned 0, ⟨⟨0, []⟩,
          [Event.post_recv 20 ⟨7, 0, [⟨4096, 4294967295, 5⟩], 1⟩ 0]⟩⟩ ∧
    rdma_post_recv scripted ep 7 4344 16 ⟨4096, 256, 5⟩ (start [Reply.of_ret 0])
      = ⟨Outcome.aborted, start [Reply.of_ret 0]⟩ := by
  refine ⟨fun h => absurd (h 8192 (by decide) (by decide)).2 (by decide), ?_, ?_⟩ <;> decide

/-- The claim C11 as written fails: 16 bytes at address 8192 lie outside the
256-byte region at 4096, yet `rdma_post_send`, `rdma_post_read` and
`rdma_post_write` each hand the request to `ibv_post_send` and return its
result. -/
theorem C11_counterexample :
    ¬ RangeWithin 8192 16 ⟨4096, 256, 5⟩ ∧
    rdma_post_send scripted ep 7 8192 16 (some ⟨4096, 256, 5⟩) 0 (start [Reply.of_ret 0])
      = ⟨0, ⟨⟨0, []⟩, [Event.post_send 20
          ⟨7, 0, [⟨8192, 16, 5⟩], 1, ibv_wr_opcode.IBV_WR_SEND, 0, send_wr_union.unset⟩ 0]⟩⟩ ∧
    rdma_post_read scripted ep 7 8192 16 ⟨4096, 256, 5⟩ 0 12288 9 (start [Reply.of_ret 0])
      = ⟨0, ⟨⟨0, []⟩, [Event.post_send 20
          ⟨7, 0, [⟨8192, 16, 5⟩], 1, ibv_wr_opcode.IBV_WR_RDMA_READ, 0,
            send_wr_union.rdma 12288 9⟩ 0]⟩⟩ ∧
    rdma_post_write scripted ep 7 8192 16 (some ⟨4096, 256, 5⟩) 0 12288 9
        (start [Reply.of_ret 0])
      = ⟨0, ⟨⟨0, []⟩, [Event.post_send 20
          ⟨7, 0, [⟨8192, 16, 5⟩], 1, ibv_wr_opcode.IBV_WR_RDMA_WRITE, 0,
            send_wr_union.rdma 12288 9⟩ 0]⟩⟩ := by
  refine ⟨fun h => absurd (h 8192 (by decide) (by decide)).2 (by decide), ?_, ?_, ?_⟩ <;> decide

/-- C11, amended (no bounds check on send, read and write): for every address,
length and region (the region may be `NULL` for a send and a write),
`rdma_post_send`, `rdma_post_read` and `rdma_post_write` make exactly one
library call, the submission `ibv_post_send` of the one-entry request to the
queue pair, whether or not the range lies within the region; only
`rdma_post_recv` asserts containment. -/
theorem C11_send_read_write_submit_unchecked (V : Verbs σ) (id : rdma_cm_id)
    (context addr length : Nat) (mr : ibv_mr) (omr : Option ibv_mr) (flags : Int)
    (remote_addr rkey : Nat) (s : Run σ) :
    new_calls s (rdma_post_send V id context addr length omr flags s).st
      = [Event.post_send id.qp
          ⟨context, 0, [⟨addr, length % 2 ^ 32, lkey_or_zero omr⟩], 1,
            ibv_wr_opcode.IBV_WR_SEND, flags, send_wr_union.unset⟩
          (V.ibv_post_send id.qp
            ⟨context, 0, [⟨addr, length % 2 ^ 32, lkey_or_zero omr⟩], 1,
              ibv_wr_opcode.IBV_WR_SEND, flags, send_wr_union.unset⟩ s.proc).1] ∧
    new_calls s (rdma_post_read V id context addr length mr flags remote_addr rkey s).st
      = [Event.post_send id.qp
          ⟨context, 0, [⟨addr, length % 2 ^ 32, mr.lkey⟩], 1,
            ibv_wr_opcode.IBV_WR_RDMA_READ, flags, send_wr_union.rdma remote_addr rkey⟩
          (V.ibv_post_send id.qp
            ⟨context, 0, [⟨addr, length % 2 ^ 32, mr.lkey⟩], 1,
              ibv_wr_opcode.IBV_WR_RDMA_READ, flags,
              send_wr_union.rdma remote_addr rkey⟩ s.proc).1] ∧
    new_calls s (rdma_post_write V id context addr length omr flags remote_addr rkey s).st
      = [Event.post_send id.qp
          ⟨context, 0, [⟨addr, length % 2 ^ 32, lkey_or_zero omr⟩], 1,
            ibv_wr_opcode.IBV_WR_RDMA_WRITE, flags, send_wr_union.rdma remote_addr rkey⟩
          (V.ibv_post_send id.qp
            ⟨context, 0, [⟨addr, length % 2 ^ 32, lkey_or_zero omr⟩], 1,
              ibv_wr_opcode.IBV_WR_RDMA_WRITE, flags,
              send_wr_union.rdma remote_addr rkey⟩ s.proc).1] := by
  refine ⟨new_calls_append _ _ _ ?_, new_calls_append _ _ _ ?_, new_calls_append _ _ _ ?_⟩
  · simp only [rdma_post_send, rdma_post_sendv, rdma_seterrno_trace]; rfl
  · simp only [rdma_post_read, rdma_post_readv, rdma_seterrno_trace]; rfl
  · simp only [rdma_post_write, rdma_post_writev, rdma_seterrno_trace]; rfl

/-- C12 (receive routing): `rdma_post_recvv` makes exactly one library call per
call.  With a shared receive queue associated with the endpoint it is
`ibv_post_srq_recv` on that queue, otherwise `ibv_post_recv` on the endpoint's
queue pair, never both; the work request carries `wr_id = context`, no chained
request, and the caller's scatter-gather list and entry count; the value
returned is `rdma_seterrno` of that call's result. -/
theorem C12_recv_routed_to_srq_or_qp (V : Verbs σ) (id : rdma_cm_id) (context : Nat)
    (sgl : List ibv_sge) (nsge : Int) (s : Run σ) :
    (id.srq ≠ 0 →
      new_calls s (rdma_post_recvv V id context sgl nsge s).st
        = [Event.post_srq_recv id.srq ⟨context, 0, sgl, nsge⟩
            (V.ibv_post_srq_recv id.srq ⟨context, 0, sgl, nsge⟩ s.proc).1] ∧
      rdma_post_recvv V id context sgl nsge s
        = rdma_seterrno (V.ibv_post_srq_recv id.srq ⟨context, 0, sgl, nsge⟩ s.proc).1
            ⟨(V.ibv_post_srq_recv id.srq ⟨context, 0, sgl, nsge⟩ s.proc).2,
              s.trace ++ [Event.post_srq_recv id.srq ⟨context, 0, sgl, nsge⟩
                (V.ibv_post_srq_recv id.srq ⟨context, 0, sgl, nsge⟩ s.proc).1]⟩) ∧
    (id.srq = 0 →
      new_calls s (rdma_post_recvv V id context sgl nsge s).st
        = [Event.post_recv id.qp ⟨context, 0, sgl, nsge⟩
            (V.ibv_post_recv id.qp ⟨context, 0, sgl, nsge⟩ s.proc).1] ∧
      rdma_post_recvv V id context sgl nsge s
        = rdma_seterrno (V.ibv_post_recv id.qp ⟨context, 0, sgl, nsge⟩ s.proc).1
            ⟨(V.ibv_post_recv id.qp ⟨context, 0, sgl, nsge⟩ s.proc).2,
              s.trace ++ [Event.post_recv id.qp ⟨context, 0, sgl, nsge⟩
                (V.ibv_post_recv id.qp ⟨context, 0, sgl, nsge⟩ s.proc).1]⟩) := by
  constructor
  · intro h
    have e : rdma_post_recvv V id context sgl nsge s
        = rdma_seterrno (V.ibv_post_srq_recv id.srq ⟨context, 0, sgl, nsge⟩ s.proc).1
            ⟨(V.ibv_post_srq_recv id.srq ⟨context, 0, sgl, nsge⟩ s.proc).2,
              s.trace ++ [Event.post_srq_recv id.srq ⟨context, 0, sgl, nsge⟩
                (V.ibv_post_srq_recv id.srq ⟨context, 0, sgl, nsge⟩ s.proc).1]⟩ := by
      unfold rdma_post_recvv; simp only [if_pos h]; rfl
    exact ⟨new_calls_append _ _ _ (by rw [e, rdma_seterrno_trace]), e⟩
  · intro h
    have e : rdma_post_recvv V id context sgl nsge s
        = rdma_seterrno (V.ibv_post_recv id.qp ⟨context, 0, sgl, nsge⟩ s.proc).1
            ⟨(V.ibv_post_recv id.qp ⟨context, 0, sgl, nsge⟩ s.proc).2,
              s.trace ++ [Event.post_recv id.qp ⟨context, 0, sgl, nsge⟩
                (V.ibv_post_recv id.qp ⟨context, 0, sgl, nsge⟩ s.proc).1]⟩ := by
      unfold rdma_post_recvv; simp only [h, ne_eq, not_true_eq_false, if_false]; rfl
    exact ⟨new_calls_append _ _ _ (by rw [e, rdma_seterrno_trace]), e⟩

/-- C12 at concrete inputs: the endpoint `ep` has no shared receive queue and
posts to its queue pair 20; the same endpoint with the shared receive queue 50
posts to that queue. -/
theorem C12_recv_routed_to_srq_or_qp_witness :
    new_calls (start [Reply.of_ret 0])
        (rdma_post_recvv scripted ep 7 [⟨4096, 16, 5⟩] 1 (start [Reply.of_ret 0])).st
      = [Event.post_recv 20 ⟨7, 0, [⟨4096, 16, 5⟩], 1⟩ 0] ∧
    new_calls (start [Reply.of_ret 0])
        (rdma_post_recvv scripted ⟨1000, 10, 20, 50, 30, 31, 40, 41⟩ 7 [⟨4096, 16, 5⟩] 1
          (start [Reply.of_ret 0])).st
      = [Event.post_srq_recv 50 ⟨7, 0, [⟨4096, 16, 5⟩], 1⟩ 0] :=
  ⟨((C12_recv_routed_to_srq_or_qp scripted ep 7 [⟨4096, 16, 5⟩] 1
      (start [Reply.of_ret 0])).2 (by decide)).1,
   ((C12_recv_routed_to_srq_or_qp scripted ⟨1000, 10, 20, 50, 30, 31, 40, 41⟩ 7
      [⟨4096, 16, 5⟩] 1 (start [Reply.of_ret 0])).1 (by decide)).1⟩

/-- C13 (the single-buffer forms are adapters): for every endpoint, context,
address, length, region, flags and remote pair, `rdma_post_recv` (when its
assertion does not reject the call), `rdma_post_send`, `rdma_post_read` and
`rdma_post_write` return exactly what `rdma_post_recvv`, `rdma_post_sendv`,
`rdma_post_readv` and `rdma_post_writev` return, and leave the same state and
the same recorded calls, for the same endpoint, context, flags and remote pair
with the one-entry list `(addr, length, mr's local key)`. -/
theorem C13_single_buffer_forms_are_adapters (V : Verbs σ) (id : rdma_cm_id)
    (context addr length : Nat) (mr : ibv_mr) (flags : Int)
    (remote_addr rkey : Nat) (s : Run σ) :
    ((rdma_post_recv V id context addr length mr s).out ≠ Outcome.aborted →
      rdma_post_recv V id context addr length mr s
        = ⟨Outcome.returned (spec_post_recv V id context addr length mr s).ret,
           (spec_post_recv V id context addr length mr s).st⟩) ∧
    rdma_post_send V id context addr length (some mr) flags s
      = spec_post_send V id context addr length mr flags s ∧
    rdma_post_read V id context addr length mr flags remote_addr rkey s
      = spec_post_read V id context addr length mr flags remote_addr rkey s ∧
    rdma_post_write V id context addr length (some mr) flags remote_addr rkey s
      = spec_post_write V id context addr length mr flags remote_addr rkey s := by
  refine ⟨?_, rfl, rfl, rfl⟩
  intro h
  unfold rdma_post_recv at h ⊢
  by_cases hb : addr ≥ mr.addr ∧ (addr + length) % 2 ^ 64 ≤ (mr.addr + mr.length) % 2 ^ 64
  · rw [if_pos hb]; rfl
  · rw [if_neg hb] at h
    exact absurd rfl h

/-- C13 at concrete inputs: a receive of `2 ^ 32 + 16` bytes inside a region of
`2 ^ 33` bytes is not rejected and is the vector receive of the one entry
`(4096, 2 ^ 32 + 16, 5)`, which as a scatter-gather entry carries 16 bytes;
the library is handed that entry and the result is 0. -/
theorem C13_single_buffer_forms_are_adapters_witness :
    (rdma_post_recv scripted ep 7 4096 4294967312 ⟨4096, 8589934592, 5⟩
        (start [Reply.of_ret 0])).out ≠ Outcome.aborted ∧
    rdma_post_recv scripted ep 7 4096 4294967312 ⟨4096, 8589934592, 5⟩ (start [Reply.of_ret 0])
      = ⟨Outcome.returned
          (spec_post_recv scripted ep 7 4096 4294967312 ⟨4096, 8589934592, 5⟩
            (start [Reply.of_ret 0])).ret,
         (spec_post_recv scripted ep 7 4096 4294967312 ⟨4096, 8589934592, 5⟩
            (start [Reply.of_ret 0])).st⟩ ∧
    spec_post_recv scripted ep 7 4096 4294967312 ⟨4096, 8589934592, 5⟩ (start [Reply.of_ret 0])
      = ⟨0, ⟨⟨0, []⟩, [Event.post_recv 20 ⟨7, 0, [⟨4096, 16, 5⟩], 1⟩ 0]⟩⟩ :=
  ⟨by decide,
   (C13_single_buffer_forms_are_adapters scripted ep 7 4096 4294967312 ⟨4096, 8589934592, 5⟩
      0 0 0 (start [Reply.of_ret 0])).1 (by decide),
   by decide⟩

/-- Whatever region is given, or none, `rdma_post_send` and `rdma_post_write`
are the vector forms with the one entry `(addr, length, lkey)`, where `lkey` is
the region's local key, or 0 when no region is given. -/
theorem send_write_entry_with_optional_region (V : Verbs σ) (id : rdma_cm_id)
    (context addr length : Nat) (omr : Option ibv_mr) (flags : Int)
    (remote_addr rkey : Nat) (s : Run σ) :
    rdma_post_send V id context addr length omr flags s
      = rdma_post_sendv V id context [sge_entry addr length (lkey_or_zero omr)] 1 flags s ∧
    rdma_post_write V id context addr length omr flags remote_addr rkey s
      = rdma_post_writev V id context [sge_entry addr length (lkey_or_zero omr)] 1 flags
          remote_addr rkey s :=
  ⟨rfl, rfl⟩

theorem addr_calls_append (s t : AddrRun σ) (ext : List AddrEvent)
    (h : t.trace = s.trace ++ ext) : addr_calls s t = ext := by
  unfold addr_calls; rw [h]; exact List.drop_left _ _

/-- With passive hints `get_rdma_addr` is one resolution of `(src, port)`. -/
theorem get_rdma_addr_passive (R : Resolver σ) (src dst port : Option String)
    (hints : rdma_addrinfo) (rai : Nat) (s : AddrRun σ)
    (h : hints.ai_flags &&& R.RAI_PASSIVE ≠ 0) :
    get_rdma_addr R src dst port hints rai s
      = ⟨(R.rdma_getaddrinfo src port hints rai s.env).1,
          (R.rdma_getaddrinfo src port hints rai s.env).2.1, hints,
          ⟨(R.rdma_getaddrinfo src port hints rai s.env).2.2,
            s.trace ++ [AddrEvent.getaddrinfo src port hints
              (R.rdma_getaddrinfo src port hints rai s.env).1
              (R.rdma_getaddrinfo src port hints rai s.env).2.1]⟩⟩ := by
  unfold get_rdma_addr; rw [if_pos h]; rfl

/-- With active hints and no source `get_rdma_addr` is one resolution of
`(dst, port)`. -/
theorem get_rdma_addr_no_source (R : Resolver σ) (dst port : Option String)
    (hints : rdma_addrinfo) (rai : Nat) (s : AddrRun σ)
    (h : hints.ai_flags &&& R.RAI_PASSIVE = 0) :
    get_rdma_addr R none dst port hints rai s
      = ⟨(R.rdma_getaddrinfo dst port hints rai s.env).1,
          (R.rdma_getaddrinfo dst port hints rai s.env).2.1, hints,
          ⟨(R.rdma_getaddrinfo dst port hints rai s.env).2.2,
            s.trace ++ [AddrEvent.getaddrinfo dst port hints
              (R.rdma_getaddrinfo dst port hints rai s.env).1
              (R.rdma_getaddrinfo dst port hints rai s.env).2.1]⟩⟩ := by
  unfold get_rdma_addr; rw [if_neg (not_not.mpr h)]; rfl

/-- With active hints and a source, a failed first phase ends `get_rdma_addr`. -/
theorem get_rdma_addr_first_failed (R : Resolver σ) (a : String) (dst port : Option String)
    (hints : rdma_addrinfo) (rai : Nat) (s : AddrRun σ)
    (h : hints.ai_flags &&& R.RAI_PASSIVE = 0) (h1 : (first_phase R a hints s).1 ≠ 0) :
    get_rdma_addr R (some a) dst port hints rai s
      = ⟨(first_phase R a hints s).1, rai, hints,
          ⟨(first_phase R a hints s).2.2,
            s.trace ++ [AddrEvent.getaddrinfo (some a) none (pin_hints R hints)
              (first_phase R a hints s).1 (first_phase R a hints s).2.1]⟩⟩ := by
  unfold get_rdma_addr
  rw [if_neg (not_not.mpr h)]
  simp only
  rw [if_pos (by exact h1)]
  rfl

/-- With active hints and a source, a successful first phase is followed by the
second phase and the release of the first result. -/
theorem get_rdma_addr_two_phase (R : Resolver σ) (a : String) (dst port : Option String)
    (hints : rdma_addrinfo) (rai : Nat) (s : AddrRun σ)
    (h : hints.ai_flags &&& R.RAI_PASSIVE = 0) (h1 : (first_phase R a hints s).1 = 0) :
    get_rdma_addr R (some a) dst port hints rai s
      = ⟨(second_phase R a dst port hints rai s).1,
          (second_phase R a dst port hints rai s).2.1, hints,
          ⟨R.rdma_freeaddrinfo (first_phase R a hints s).2.1
              (second_phase R a dst port hints rai s).2.2,
            s.trace ++ [AddrEvent.getaddrinfo (some a) none (pin_hints R hints) 0
                (first_phase R a hints s).2.1,
              AddrEvent.getaddrinfo dst port (pinned_hints R a hints s)
                (second_phase R a dst port hints rai s).1
                (second_phase R a dst port hints rai s).2.1,
              AddrEvent.freeaddrinfo (first_phase R a hints s).2.1]⟩⟩ := by
  unfold get_rdma_addr
  rw [if_neg (not_not.mpr h)]
  simp only
  rw [if_neg (by exact not_not.mpr h1)]
  simp only [call_getaddrinfo, call_freeaddrinfo, second_phase, pinned_hints, first_phase,
    pin_hints, List.append_assoc, List.singleton_append] at h1 ⊢
  simp [h1]

/-- Clearing the bits of `P` in a 32-bit word leaves none of them set. -/
theorem passive_bit_cleared (f P : Nat) (hP : P < 2 ^ 32) :
    ((f ||| P) &&& (P ^^^ 0xFFFFFFFF)) &&& P = 0 := by
  apply Nat.eq_of_testBit_eq
  intro i
  have hm : (0xFFFFFFFF : Nat) = 2 ^ 32 - 1 := by norm_num
  rw [hm]
  simp only [Nat.testBit_and, Nat.testBit_xor, Nat.testBit_or, Nat.testBit_two_pow_sub_one,
    Nat.zero_testBit]
  by_cases hi : i < 32
  · simp [hi]
  · have : P.testBit i = false :=
      Nat.testBit_lt_two_pow (lt_of_lt_of_le hP (Nat.pow_le_pow_right (by norm_num) (not_lt.mp hi)))
    simp [this]

/-- Setting and then clearing the bits of `P` in a 32-bit word that had none of
them set gives the word back. -/
theorem set_then_clear_passive (f P : Nat) (hf : f < 2 ^ 32) (hP : P < 2 ^ 32)
    (h : f &&& P = 0) :
    (f ||| P) &&& (P ^^^ 0xFFFFFFFF) = f := by
  apply Nat.eq_of_testBit_eq
  intro i
  have hm : (0xFFFFFFFF : Nat) = 2 ^ 32 - 1 := by norm_num
  rw [hm]
  have hb : (f.testBit i && P.testBit i) = false := by
    rw [← Nat.testBit_and, h, Nat.zero_testBit]
  simp only [Nat.testBit_and, Nat.testBit_xor, Nat.testBit_or, Nat.testBit_two_pow_sub_one]
  by_cases hi : i < 32
  · simp only [hi, decide_True]
    cases hfi : f.testBit i <;> cases hpi : P.testBit i <;> simp_all
  · have : f.testBit i = false :=
      Nat.testBit_lt_two_pow (lt_of_lt_of_le hf (Nat.pow_le_pow_right (by norm_num) (not_lt.mp hi)))
    have hp : P.testBit i = false :=
      Nat.testBit_lt_two_pow (lt_of_lt_of_le hP (Nat.pow_le_pow_right (by norm_num) (not_lt.mp hi)))
    simp [this, hp]

/-- The claim C14 as written fails: with passive hints, destination "10.0.0.9"
and port "7471", the one resolution request is for the source "10.0.0.5" and
the port, not for the destination, and the source decides the result: with it
the call succeeds, without a source it fails with `-2`. -/
theorem C14_counterexample :
    (get_rdma_addr table (some "10.0.0.5") (some "10.0.0.9") (some "7471") passive_hints 0
        table_start).st.trace
      = [AddrEvent.getaddrinfo (some "10.0.0.5") (some "7471") passive_hints 0 1] ∧
    (get_rdma_addr table (some "10.0.0.5") (some "10.0.0.9") (some "7471") passive_hints 0
        table_start).ret = 0 ∧
    (get_rdma_addr table none (some "10.0.0.9") (some "7471") passive_hints 0
        table_start).ret = -2 := by
  decide

/-- C14, amended (passive resolution): whenever the hints carry the passive
flag, `get_rdma_addr` resolves directly against the source/port pair, and the
destination argument has no influence on the resolution request or on the
result. -/
theorem C14_passive_resolves_source_and_port (R : Resolver σ) (src dst dst' port : Option String)
    (hints : rdma_addrinfo) (rai : Nat) (s : AddrRun σ)
    (h : hints.ai_flags &&& R.RAI_PASSIVE ≠ 0) :
    addr_calls s (get_rdma_addr R src dst port hints rai s).st
      = [AddrEvent.getaddrinfo src port hints (R.rdma_getaddrinfo src port hints rai s.env).1
          (R.rdma_getaddrinfo src port hints rai s.env).2.1] ∧
    get_rdma_addr R src dst' port hints rai s = get_rdma_addr R src dst port hints rai s := by
  refine ⟨addr_calls_append _ _ _ ?_, ?_⟩
  · rw [get_rdma_addr_passive R src dst port hints rai s h]
  · rw [get_rdma_addr_passive R src dst port hints rai s h,
      get_rdma_addr_passive R src dst' port hints rai s h]

/-- C14 (amended) at a concrete input: a listener on "10.0.0.5", port "7471",
gets the same answer whatever the destination argument is. -/
theorem C14_passive_resolves_source_and_port_witness :
    get_rdma_addr table (some "10.0.0.5") none (some "7471") passive_hints 0 table_start
      = get_rdma_addr table (some "10.0.0.5") (some "10.0.0.9") (some "7471") passive_hints 0
          table_start :=
  (C14_passive_resolves_source_and_port table (some "10.0.0.5") (some "10.0.0.9") none
    (some "7471") passive_hints 0 table_start (by decide)).2

/-- C15 (Scenario C): whenever the hints carry the passive flag,
`get_rdma_addr` makes exactly one resolution call, with node = the source
argument, service = the port and the caller's hints, returns that call's result
code and leaves in `*rai` what that call left there; there is no second
resolution and nothing is released. -/
theorem C15_passive_single_resolution (R : Resolver σ) (src dst port : Option String)
    (hints : rdma_addrinfo) (rai : Nat) (s : AddrRun σ)
    (h : hints.ai_flags &&& R.RAI_PASSIVE ≠ 0) :
    get_rdma_addr R src dst port hints rai s
      = ⟨(R.rdma_getaddrinfo src port hints rai s.env).1,
          (R.rdma_getaddrinfo src port hints rai s.env).2.1, hints,
          ⟨(R.rdma_getaddrinfo src port hints rai s.env).2.2,
            s.trace ++ [AddrEvent.getaddrinfo src port hints
              (R.rdma_getaddrinfo src port hints rai s.env).1
              (R.rdma_getaddrinfo src port hints rai s.env).2.1]⟩⟩ ∧
    resolution_codes (addr_calls s (get_rdma_addr R src dst port hints rai s).st)
      = [(R.rdma_getaddrinfo src port hints rai s.env).1] ∧
    releases (addr_calls s (get_rdma_addr R src dst port hints rai s).st) = [] := by
  have e := get_rdma_addr_passive R src dst port hints rai s h
  have c : addr_calls s (get_rdma_addr R src dst port hints rai s).st
      = [AddrEvent.getaddrinfo src port hints (R.rdma_getaddrinfo src port hints rai s.env).1
          (R.rdma_getaddrinfo src port hints rai s.env).2.1] :=
    addr_calls_append _ _ _ (by rw [e])
  exact ⟨e, by rw [c]; rfl, by rw [c]; rfl⟩

/-- C15 at the input of Scenario C: passive hints, source "10.0.0.5", port
"7471", no destination: one listening resolution for 10.0.0.5:7471, whose
result (source address 10.0.0.5) is handed to the caller. -/
theorem C15_passive_single_resolution_witness :
    get_rdma_addr table (some "10.0.0.5") none (some "7471") passive_hints 0 table_start
      = ⟨0, 1, passive_hints,
          ⟨⟨[⟨1, 0, 0, 262, 16, 0, 0x0A000005, 0⟩], []⟩,
            [AddrEvent.getaddrinfo (some "10.0.0.5") (some "7471") passive_hints 0 1]⟩⟩ :=
  (C15_passive_single_resolution table (some "10.0.0.5") none (some "7471") passive_hints 0
    table_start (by decide)).1

/-- C16 (Scenario D, two-phase resolution): when the hints are not passive, a
source is given and the first resolution succeeds, `get_rdma_addr` makes
exactly two resolution calls: the first for (source, no port) with the caller's
hints plus the passive flag; the second for (destination, port) with hints that
differ from those in the source address and length, which are the ones of the
first call's result, and in the passive flag, which is clear.  The value
returned and the result pointer handed to the caller are those of the second
call.  When no source is given there is exactly one call, for (destination,
port) with the caller's hints. -/
theorem C16_two_phase_resolution (R : Resolver σ) (a : String) (dst port : Option String)
    (hints : rdma_addrinfo) (rai : Nat) (s : AddrRun σ)
    (h : hints.ai_flags &&& R.RAI_PASSIVE = 0) :
    ((first_phase R a hints s).1 = 0 →
      get_rdma_addr R (some a) dst port hints rai s
        = ⟨(second_phase R a dst port hints rai s).1,
            (second_phase R a dst port hints rai s).2.1, hints,
            ⟨R.rdma_freeaddrinfo (first_phase R a hints s).2.1
                (second_phase R a dst port hints rai s).2.2,
              s.trace ++ [AddrEvent.getaddrinfo (some a) none (pin_hints R hints) 0
                  (first_phase R a hints s).2.1,
                AddrEvent.getaddrinfo dst port (pinned_hints R a hints s)
                  (second_phase R a dst port hints rai s).1
                  (second_phase R a dst port hints rai s).2.1,
                AddrEvent.freeaddrinfo (first_phase R a hints s).2.1]⟩⟩ ∧
      resolution_codes (addr_calls s (get_rdma_addr R (some a) dst port hints rai s).st)
        = [0, (second_phase R a dst port hints rai s).1]) ∧
    pin_hints R hints = { hints with ai_flags := hints.ai_flags ||| R.RAI_PASSIVE } ∧
    pinned_hints R a hints s
      = { hints with
          ai_src_addr :=
            (R.load (first_phase R a hints s).2.1 (first_phase R a hints s).2.2).ai_src_addr
          ai_src_len :=
            (R.load (first_phase R a hints s).2.1 (first_phase R a hints s).2.2).ai_src_len
          ai_flags := (hints.ai_flags ||| R.RAI_PASSIVE) &&& (R.RAI_PASSIVE ^^^ 0xFFFFFFFF) } ∧
    (R.RAI_PASSIVE < 2 ^ 32 → (pinned_hints R a hints s).ai_flags &&& R.RAI_PASSIVE = 0) ∧
    (get_rdma_addr R none dst port hints rai s
        = ⟨(R.rdma_getaddrinfo dst port hints rai s.env).1,
            (R.rdma_getaddrinfo dst port hints rai s.env).2.1, hints,
            ⟨(R.rdma_getaddrinfo dst port hints rai s.env).2.2,
              s.trace ++ [AddrEvent.getaddrinfo dst port hints
                (R.rdma_getaddrinfo dst port hints rai s.env).1
                (R.rdma_getaddrinfo dst port hints rai s.env).2.1]⟩⟩) := by
  refine ⟨?_, rfl, rfl, ?_, get_rdma_addr_no_source R dst port hints rai s h⟩
  · intro h1
    have e := get_rdma_addr_two_phase R a dst port hints rai s h h1
    refine ⟨e, ?_⟩
    rw [addr_calls_append _ _ _ (by rw [e])]
    rfl
  · intro hP
    exact passive_bit_cleared hints.ai_flags R.RAI_PASSIVE hP

/-- C16 at the input of Scenario D: active hints, source "10.0.0.5",
destination "10.0.0.9", port "7471": two resolution calls, the second with the
source address 10.0.0.5 pinned, and a result whose local address is
10.0.0.5. -/
theorem C16_two_phase_resolution_witness :
    get_rdma_addr table (some "10.0.0.5") (some "10.0.0.9") (some "7471") active_hints 0
        table_start
      = ⟨0, 2, active_hints,
          ⟨⟨[⟨1, 0, 0, 262, 16, 0, 0x0A000005, 0⟩,
              ⟨0, 0, 0, 262, 16, 16, 0x0A000005, 0x0A000009⟩], [1]⟩,
            [AddrEvent.getaddrinfo (some "10.0.0.5") none ⟨1, 0, 0, 262, 0, 0, 0, 0⟩ 0 1,
              AddrEvent.getaddrinfo (some "10.0.0.9") (some "7471")
                ⟨0, 0, 0, 262, 16, 0, 0x0A000005, 0⟩ 0 2,
              AddrEvent.freeaddrinfo 1]⟩⟩ :=
  ((C16_two_phase_resolution table "10.0.0.5" (some "10.0.0.9") (some "7471") active_hints 0
    table_start (by decide)).1 (by decide)).1

/-- C17 (release of the intermediate result): in every run of `get_rdma_addr`
in which the first-phase lookup succeeds, the first result is released exactly
once, as the last call, after the second resolution has returned, whatever
that second call returned; with passive hints, with no source, or with a
failed first phase, nothing is released. -/
theorem C17_intermediate_result_released_once (R : Resolver σ) (src dst port : Option String)
    (hints : rdma_addrinfo) (rai : Nat) (s : AddrRun σ) :
    (hints.ai_flags &&& R.RAI_PASSIVE ≠ 0 →
      releases (addr_calls s (get_rdma_addr R src dst port hints rai s).st) = []) ∧
    (hints.ai_flags &&& R.RAI_PASSIVE = 0 → src = none →
      releases (addr_calls s (get_rdma_addr R src dst port hints rai s).st) = []) ∧
    (∀ a, hints.ai_flags &&& R.RAI_PASSIVE = 0 → src = some a →
      (first_phase R a hints s).1 ≠ 0 →
      releases (addr_calls s (get_rdma_addr R src dst port hints rai s).st) = []) ∧
    (∀ a, hints.ai_flags &&& R.RAI_PASSIVE = 0 → src = some a →
      (first_phase R a hints s).1 = 0 →
      releases (addr_calls s (get_rdma_addr R src dst port hints rai s).st)
        = [(first_phase R a hints s).2.1] ∧
      ∃ pre, addr_calls s (get_rdma_addr R src dst port hints rai s).st
          = pre ++ [AddrEvent.freeaddrinfo (first_phase R a hints s).2.1] ∧
        releases pre = [] ∧
        resolution_codes pre = [0, (second_phase R a dst port hints rai s).1]) := by
  refine ⟨?_, ?_, ?_, ?_⟩
  · intro h
    rw [addr_calls_append _ _ _ (by rw [get_rdma_addr_passive R src dst port hints rai s h])]
    rfl
  · intro h hs
    subst hs
    rw [addr_calls_append _ _ _ (by rw [get_rdma_addr_no_source R dst port hints rai s h])]
    rfl
  · intro a h hs h1
    subst hs
    rw [addr_calls_append _ _ _
      (by rw [get_rdma_addr_first_failed R a dst port hints rai s h h1])]
    rfl
  · intro a h hs h1
    subst hs
    rw [addr_calls_append _ _ _ (by rw [get_rdma_addr_two_phase R a dst port hints rai s h h1])]
    exact ⟨rfl, [AddrEvent.getaddrinfo (some a) none (pin_hints R hints) 0
        (first_phase R a hints s).2.1,
      AddrEvent.getaddrinfo dst port (pinned_hints R a hints s)
        (second_phase R a dst port hints rai s).1
        (second_phase R a dst port hints rai s).2.1], rfl, rfl, rfl⟩

/-- C17 at concrete inputs: the first result (pointer 1) is released once when
the second phase succeeds and when it fails for an unknown destination, and
nothing is released when the first phase fails for an unknown source. -/
theorem C17_intermediate_result_released_once_witness :
    releases (addr_calls table_start
        (get_rdma_addr table (some "10.0.0.5") (some "10.0.0.9") (some "7471") active_hints 0
          table_start).st) = [1] ∧
    releases (addr_calls table_start
        (get_rdma_addr table (some "10.0.0.5") (some "10.0.0.7") (some "7471") active_hints 0
          table_start).st) = [1] ∧
    releases (addr_calls table_start
        (get_rdma_addr table (some "10.0.0.7") (some "10.0.0.9") (some "7471") active_hints 0
          table_start).st) = [] :=
  ⟨((C17_intermediate_result_released_once table (some "10.0.0.5") (some "10.0.0.9")
      (some "7471") active_hints 0 table_start).2.2.2 "10.0.0.5" (by decide) rfl (by decide)).1,
   ((C17_intermediate_result_released_once table (some "10.0.0.5") (some "10.0.0.7")
      (some "7471") active_hints 0 table_start).2.2.2 "10.0.0.5" (by decide) rfl (by decide)).1,
   (C17_intermediate_result_released_once table (some "10.0.0.7") (some "10.0.0.9")
      (some "7471") active_hints 0 table_start).2.2.1 "10.0.0.7" (by decide) rfl (by decide)⟩

/-- The calls of a run of `get_rdma_addr` and the value it returns, path by
path: the resolution codes are `[ret]` (passive hints, or no source), `[c]`
with `ret = c ≠ 0` (failed first phase), or `[0, ret]` (two phases). -/
theorem get_rdma_addr_codes (R : Resolver σ) (src dst port : Option String)
    (hints : rdma_addrinfo) (rai : Nat) (s : AddrRun σ) :
    resolution_codes (addr_calls s (get_rdma_addr R src dst port hints rai s).st)
        = [(get_rdma_addr R src dst port hints rai s).ret] ∨
    resolution_codes (addr_calls s (get_rdma_addr R src dst port hints rai s).st)
        = [0, (get_rdma_addr R src dst port hints rai s).ret] := by
  by_cases h : hints.ai_flags &&& R.RAI_PASSIVE = 0
  · cases src with
    | none =>
      left
      rw [addr_calls_append _ _ _ (by rw [get_rdma_addr_no_source R dst port hints rai s h]),
        get_rdma_addr_no_source R dst port hints rai s h]
      rfl
    | some a =>
      by_cases h1 : (first_phase R a hints s).1 = 0
      · right
        rw [addr_calls_append _ _ _
            (by rw [get_rdma_addr_two_phase R a dst port hints rai s h h1]),
          get_rdma_addr_two_phase R a dst port hints rai s h h1]
        rfl
      · left
        rw [addr_calls_append _ _ _
            (by rw [get_rdma_addr_first_failed R a dst port hints rai s h h1]),
          get_rdma_addr_first_failed R a dst port hints rai s h h1]
        rfl
  · left
    rw [addr_calls_append _ _ _ (by rw [get_rdma_addr_passive R src dst port hints rai s h]),
      get_rdma_addr_passive R src dst port hints rai s h]
    rfl

/-- C18 (failure propagation of the resolver): `get_rdma_addr` returns 0 only
if every resolution call it made returned 0.  If the first-phase lookup returns
a non-zero code, that code is returned, it is the only call made (no second
resolution, no release) and the caller's result pointer keeps its contents.  In
every run the value returned is the code of the last resolution call made, so a
non-zero code of the second (or only) resolution is returned. -/
theorem C18_resolver_failure_propagates (R : Resolver σ) (src dst port : Option String)
    (hints : rdma_addrinfo) (rai : Nat) (s : AddrRun σ) :
    ((get_rdma_addr R src dst port hints rai s).ret = 0 →
      ∀ r ∈ resolution_codes (addr_calls s (get_rdma_addr R src dst port hints rai s).st),
        r = 0) ∧
    (∀ a, hints.ai_flags &&& R.RAI_PASSIVE = 0 → src = some a →
      (first_phase R a hints s).1 ≠ 0 →
      (get_rdma_addr R src dst port hints rai s).ret = (first_phase R a hints s).1 ∧
      (get_rdma_addr R src dst port hints rai s).rai = rai ∧
      addr_calls s (get_rdma_addr R src dst port hints rai s).st
        = [AddrEvent.getaddrinfo (some a) none (pin_hints R hints) (first_phase R a hints s).1
            (first_phase R a hints s).2.1]) ∧
    (resolution_codes (addr_calls s (get_rdma_addr R src dst port hints rai s).st)).getLast?
      = some (get_rdma_addr R src dst port hints rai s).ret := by
  refine ⟨?_, ?_, ?_⟩
  · intro h0 r hr
    rcases get_rdma_addr_codes R src dst port hints rai s with hc | hc
    · rw [hc, h0] at hr; simpa using hr
    · rw [hc, h0] at hr; simpa using hr
  · intro a h hs h1
    subst hs
    have e := get_rdma_addr_first_failed R a dst port hints rai s h h1
    exact ⟨by rw [e], by rw [e], addr_calls_append _ _ _ (by rw [e])⟩
  · rcases get_rdma_addr_codes R src dst port hints rai s with hc | hc
    · rw [hc]; rfl
    · rw [hc]; rfl

/-- C18 at concrete inputs: an unknown source makes the first phase fail with
`-2`, which is returned with the result pointer (here 77) untouched after one
call; an unknown destination makes the second phase fail with `-2`, which is
returned; and a run that returns 0 made only calls that returned 0. -/
theorem C18_resolver_failure_propagates_witness :
    ((get_rdma_addr table (some "10.0.0.7") (some "10.0.0.9") (some "7471") active_hints 77
        table_start).ret = -2 ∧
      (get_rdma_addr table (some "10.0.0.7") (some "10.0.0.9") (some "7471") active_hints 77
        table_start).rai = 77 ∧
      addr_calls table_start
        (get_rdma_addr table (some "10.0.0.7") (some "10.0.0.9") (some "7471") active_hints 77
          table_start).st
        = [AddrEvent.getaddrinfo (some "10.0.0.7") none ⟨1, 0, 0, 262, 0, 0, 0, 0⟩ (-2) 0]) ∧
    (get_rdma_addr table (some "10.0.0.5") (some "10.0.0.7") (some "7471") active_hints 77
        table_start).ret = -2 ∧
    (∀ r ∈ resolution_codes (addr_calls table_start
        (get_rdma_addr table (some "10.0.0.5") (some "10.0.0.9") (some "7471") active_hints 77
          table_start).st), r = 0) :=
  ⟨(C18_resolver_failure_propagates table (some "10.0.0.7") (some "10.0.0.9") (some "7471")
      active_hints 77 table_start).2.1 "10.0.0.7" (by decide) rfl (by decide),
   by decide,
   (C18_resolver_failure_propagates table (some "10.0.0.5") (some "10.0.0.9") (some "7471")
      active_hints 77 table_start).1 (by decide)⟩

theorem poll_calls_append (s t : PollRun σ) (ext : List PollEvent)
    (h : t.trace = s.trace ++ ext) : poll_calls s t = ext := by
  unfold poll_calls; rw [h]; exact List.drop_left _ _

/-- A recorded check keeps the descriptor and the requested events, and adds
one event with the arguments of the check and its result. -/
theorem rs_poll_spec (P : Poller σ) (use_rs : Int) (f : pollfd) (n : Nat) (t : Int)
    (s : PollRun σ) :
    (rs_poll P use_rs f n t s).fds.fd = f.fd ∧
    (rs_poll P use_rs f n t s).fds.events = f.events ∧
    ∃ e : PollEvent, (rs_poll P use_rs f n t s).st.trace = s.trace ++ [e] ∧
      e.fd = f.fd ∧ e.events = f.events ∧ e.nfds = n ∧ e.timeout = t ∧
      e.ret = (rs_poll P use_rs f n t s).ret ∧
      e.revents = (rs_poll P use_rs f n t s).fds.revents := by
  unfold rs_poll
  by_cases h : use_rs ≠ 0
  · rw [if_pos h]
    exact ⟨rfl, rfl, _, rfl, rfl, rfl, rfl, rfl, rfl, rfl⟩
  · rw [if_neg h]
    exact ⟨rfl, rfl, _, rfl, rfl, rfl, rfl, rfl, rfl, rfl⟩

/-- After `k` checks that returned 0 and one that did not, `do_poll` returns. -/
theorem do_poll_after (P : Poller σ) (use_rs : Int) (timeout : Int) (k extra : Nat)
    (fds : pollfd) (s : PollRun σ)
    (hz : ∀ i, i < k → (check_at P use_rs timeout i fds s).ret = 0)
    (hr : (check_at P use_rs timeout k fds s).ret ≠ 0) :
    do_poll P use_rs timeout (k + 1 + extra) fds s
      = ⟨Outcome.returned
          (if (check_at P use_rs timeout k fds s).ret = 1 then
            (((check_at P use_rs timeout k fds s).fds.revents &&& (P.POLLERR ||| P.POLLHUP)
              : Nat) : Int)
          else (check_at P use_rs timeout k fds s).ret),
        (check_at P use_rs timeout k fds s).fds, (check_at P use_rs timeout k fds s).st⟩ := by
  induction k generalizing fds s with
  | zero =>
    have e : 0 + 1 + extra = extra + 1 := by omega
    rw [e]
    unfold do_poll
    simp only
    have hr' : (rs_poll P use_rs fds 1 timeout s).ret ≠ 0 := hr
    rw [if_neg hr']
    rfl
  | succ j ih =>
    have e : j + 1 + 1 + extra = (j + 1 + extra) + 1 := by omega
    rw [e]
    unfold do_poll
    simp only
    have h0 : (rs_poll P use_rs fds 1 timeout s).ret = 0 := hz 0 (Nat.succ_pos j)
    rw [if_pos h0]
    exact ih (rs_poll P use_rs fds 1 timeout s).fds (rs_poll P use_rs fds 1 timeout s).st
      (fun i hi => hz (i + 1) (Nat.succ_lt_succ hi)) hr

/-- The checks made up to the first one that does not return 0. -/
theorem checks_trace (P : Poller σ) (use_rs : Int) (timeout : Int) (k : Nat)
    (fds : pollfd) (s : PollRun σ)
    (hz : ∀ i, i < k → (check_at P use_rs timeout i fds s).ret = 0) :
    ∃ ext, (check_at P use_rs timeout k fds s).st.trace = s.trace ++ ext ∧
      ext.map PollEvent.ret = List.replicate k 0 ++ [(check_at P use_rs timeout k fds s).ret] ∧
      ∀ e ∈ ext, e.fd = fds.fd ∧ e.events = fds.events ∧ e.nfds = 1 ∧ e.timeout = timeout := by
  induction k generalizing fds s with
  | zero =>
    obtain ⟨-, -, e, he, h1, h2, h3, h4, h5, -⟩ := rs_poll_spec P use_rs fds 1 timeout s
    refine ⟨[e], he, by simp [h5, check_at, after_checks], ?_⟩
    intro e' he'
    rw [List.mem_singleton] at he'
    subst he'
    exact ⟨h1, h2, h3, h4⟩
  | succ j ih =>
    obtain ⟨hfd, hev, e, he, h1, h2, h3, h4, h5, -⟩ := rs_poll_spec P use_rs fds 1 timeout s
    have h0 : (rs_poll P use_rs fds 1 timeout s).ret = 0 := hz 0 (Nat.succ_pos j)
    obtain ⟨ext, hext, hmap, hall⟩ :=
      ih (rs_poll P use_rs fds 1 timeout s).fds (rs_poll P use_rs fds 1 timeout s).st
        (fun i hi => hz (i + 1) (Nat.succ_lt_succ hi))
    refine ⟨e :: ext, ?_, ?_, ?_⟩
    · show (check_at P use_rs timeout j (rs_poll P use_rs fds 1 timeout s).fds
        (rs_poll P use_rs fds 1 timeout s).st).st.trace = _
      rw [hext, he]; simp
    · show (e :: ext).map PollEvent.ret = List.replicate (j + 1) 0 ++
        [(check_at P use_rs timeout j (rs_poll P use_rs fds 1 timeout s).fds
          (rs_poll P use_rs fds 1 timeout s).st).ret]
      rw [List.map_cons, hmap, h5, h0, List.replicate_succ]; rfl
    · intro e' he'
      rcases List.mem_cons.mp he' with hh | hh
      · subst hh; exact ⟨h1, h2, h3, h4⟩
      · obtain ⟨a1, a2, a3, a4⟩ := hall e' hh
        exact ⟨a1.trans hfd, a2.trans hev, a3, a4⟩

/-- C19 (readiness wait): when the first `k` readiness checks return 0 and the
next one returns `r ≠ 0`, `do_poll` makes exactly these `k + 1` checks, each on
the caller's descriptor and requested events, for one descriptor, with the
caller's timeout, and returns `revents & (POLLERR | POLLHUP)` if `r = 1` and `r`
itself otherwise.  Hence it returns 0 exactly when `r = 1` and neither the
error nor the hang-up flag is set: a check that returns 0 is retried, never
reported. -/
theorem C19_do_poll_retries_until_nonzero (P : Poller σ) (use_rs : Int) (timeout : Int)
    (k extra : Nat) (fds : pollfd) (s : PollRun σ)
    (hz : ∀ i, i < k → (check_at P use_rs timeout i fds s).ret = 0)
    (hr : (check_at P use_rs timeout k fds s).ret ≠ 0) :
    do_poll P use_rs timeout (k + 1 + extra) fds s
      = ⟨Outcome.returned
          (if (check_at P use_rs timeout k fds s).ret = 1 then
            (((check_at P use_rs timeout k fds s).fds.revents &&& (P.POLLERR ||| P.POLLHUP)
              : Nat) : Int)
          else (check_at P use_rs timeout k fds s).ret),
        (check_at P use_rs timeout k fds s).fds, (check_at P use_rs timeout k fds s).st⟩ ∧
    (poll_calls s (do_poll P use_rs timeout (k + 1 + extra) fds s).st).map PollEvent.ret
      = List.replicate k 0 ++ [(check_at P use_rs timeout k fds s).ret] ∧
    (poll_calls s (do_poll P use_rs timeout (k + 1 + extra) fds s).st).length = k + 1 ∧
    (∀ e ∈ poll_calls s (do_poll P use_rs timeout (k + 1 + extra) fds s).st,
      e.fd = fds.fd ∧ e.events = fds.events ∧ e.nfds = 1 ∧ e.timeout = timeout) ∧
    ((do_poll P use_rs timeout (k + 1 + extra) fds s).out = Outcome.returned 0 ↔
      ((check_at P use_rs timeout k fds s).ret = 1 ∧
        (check_at P use_rs timeout k fds s).fds.revents &&& (P.POLLERR ||| P.POLLHUP) = 0)) := by
  have e := do_poll_after P use_rs timeout k extra fds s hz hr
  obtain ⟨ext, hext, hmap, hall⟩ := checks_trace P use_rs timeout k fds s hz
  have hc : poll_calls s (do_poll P use_rs timeout (k + 1 + extra) fds s).st = ext :=
    poll_calls_append _ _ _ (by rw [e]; exact hext)
  refine ⟨e, by rw [hc]; exact hmap, ?_, by rw [hc]; exact hall, ?_⟩
  · rw [hc]
    have := congrArg List.length hmap
    simpa using this
  · rw [e]
    constructor
    · intro h
      have h' : (if (check_at P use_rs timeout k fds s).ret = 1 then
            (((check_at P use_rs timeout k fds s).fds.revents &&& (P.POLLERR ||| P.POLLHUP)
              : Nat) : Int)
          else (check_at P use_rs timeout k fds s).ret) = 0 := by
        simpa using h
      by_cases h1 : (check_at P use_rs timeout k fds s).ret = 1
      · rw [if_pos h1] at h'
        exact ⟨h1, by exact_mod_cast h'⟩
      · rw [if_neg h1] at h'
        exact absurd h' hr
    · rintro ⟨h1, h2⟩
      simp [h1, h2]

/-- C19 at a concrete input: two checks time out, the third reports the
descriptor ready with `revents = POLLIN | POLLHUP` (17): `do_poll` makes three
checks and returns 16, the hang-up flag. -/
theorem C19_do_poll_retries_until_nonzero_witness :
    do_poll script_poller 1 (-1) 3 ⟨3, 1, 0⟩ ⟨[(0, 0), (0, 0), (1, 17)], []⟩
      = ⟨Outcome.returned 16, ⟨3, 1, 17⟩,
          ⟨[], [⟨true, 3, 1, 1, -1, 0, 0⟩, ⟨true, 3, 1, 1, -1, 0, 0⟩,
            ⟨true, 3, 1, 1, -1, 1, 17⟩]⟩⟩ :=
  (C19_do_poll_retries_until_nonzero script_poller 1 (-1) 2 0 ⟨3, 1, 0⟩
    ⟨[(0, 0), (0, 0), (1, 17)], []⟩
    (fun i hi => by
      have hi' : i = 0 ∨ i = 1 := by omega
      rcases hi' with rfl | rfl <;> decide)
    (by decide)).1

/-- The fill loop started at index `i` leaves the bytes below `i` alone. -/
theorem format_loop_below (n i : Nat) (array : Nat → Nat) (data j : Nat) (h : j < i) :
    (format_loop n i array data).1 j = array j := by
  induction n generalizing i array data with
  | zero => rfl
  | succ m ih =>
    unfold format_loop
    rw [ih (i + 1) _ _ (Nat.lt_succ_of_lt h), Function.update_noteq (Nat.ne_of_lt h)]

/-- Verifying what the fill loop wrote, from the same index and counter, finds
no difference and ends with the counter of the fill loop. -/
theorem verify_loop_format_loop (n i : Nat) (array : Nat → Nat) (data : Nat) (t : Int) :
    verify_loop n i (format_loop n i array data).1 data t
      = (0, (format_loop n i array data).2, t + n) := by
  induction n generalizing i array data t with
  | zero => simp [verify_loop, format_loop]
  | succ m ih =>
    unfold verify_loop
    have hi : (format_loop (m + 1) i array data).1 i = data := by
      unfold format_loop
      rw [format_loop_below m (i + 1) _ _ i (Nat.lt_succ_self i), Function.update_same]
    rw [if_neg (not_not.mpr hi)]
    have hstep : format_loop (m + 1) i array data
        = format_loop m (i + 1) (Function.update array i data) ((data + 1) % 256) := rfl
    rw [hstep, ih]
    simp only [Nat.cast_add, Nat.cast_one, Prod.mk.injEq, true_and]
    omega

/-- `verify_buf` on a buffer filled by `format_buf` with the same size and
counter returns 0 and leaves the counter of `format_buf`. -/
theorem verify_buf_format_buf (array : Nat → Nat) (size : Int) (data : Nat) (t : Int) :
    verify_buf (format_buf array size data).1 size data t
      = (0, (format_buf array size data).2, t + size.toNat) :=
  verify_loop_format_loop size.toNat 0 array data t

/-- Verifying, in order, the buffers filled by `format_all` returns 0 for each
and ends with the counter of `format_all`. -/
theorem verify_all_format_all (bufs : List ((Nat → Nat) × Int)) (data : Nat) (t : Int) :
    (verify_all (format_all bufs data).1 data t).1 = bufs.map (fun _ => 0) ∧
    (verify_all (format_all bufs data).1 data t).2.1 = (format_all bufs data).2 := by
  induction bufs generalizing data t with
  | nil => exact ⟨rfl, rfl⟩
  | cons b bs ih =>
    simp only [format_all, verify_all, List.map_cons]
    rw [verify_buf_format_buf]
    obtain ⟨h1, h2⟩ := ih (format_buf b.1 b.2 data).2 (t + b.2.toNat)
    exact ⟨by rw [h1], h2⟩

/-- The verification loop returns `-1` exactly when one of its `n` bytes differs
from the counter value expected at its place, and 0 otherwise. -/
theorem verify_loop_fails_iff (n i : Nat) (array : Nat → Nat) (data : Nat) (t : Int)
    (hd : data < 256) :
    ((verify_loop n i array data t).1 = -1 ↔
      ∃ j, j < n ∧ array (i + j) ≠ (data + j) % 256) ∧
    ((verify_loop n i array data t).1 = 0 ∨ (verify_loop n i array data t).1 = -1) := by
  induction n generalizing i data t with
  | zero => simp [verify_loop]
  | succ m ih =>
    unfold verify_loop
    by_cases h : array i ≠ data
    · rw [if_pos h]
      refine ⟨⟨fun _ => ⟨0, Nat.succ_pos m, ?_⟩, fun _ => rfl⟩, Or.inr rfl⟩
      rw [Nat.add_zero, Nat.add_zero, Nat.mod_eq_of_lt hd]
      exact h
    · rw [if_neg h]
      have hd' : (data + 1) % 256 < 256 := Nat.mod_lt _ (by norm_num)
      obtain ⟨h1, h2⟩ := ih (i + 1) ((data + 1) % 256) (t + 1) hd'
      refine ⟨?_, h2⟩
      rw [h1]
      constructor
      · rintro ⟨j, hj, hne⟩
        refine ⟨j + 1, Nat.succ_lt_succ hj, ?_⟩
        have e1 : i + (j + 1) = i + 1 + j := by omega
        have e2 : (data + (j + 1)) % 256 = ((data + 1) % 256 + j) % 256 := by omega
        rw [e1, e2]; exact hne
      · rintro ⟨j, hj, hne⟩
        cases j with
        | zero =>
          rw [Nat.add_zero, Nat.add_zero, Nat.mod_eq_of_lt hd] at hne
          exact absurd hne h
        | succ j' =>
          refine ⟨j', Nat.lt_of_succ_lt_succ hj, ?_⟩
          have e1 : i + (j' + 1) = i + 1 + j' := by omega
          have e2 : (data + (j' + 1)) % 256 = ((data + 1) % 256 + j') % 256 := by omega
          rw [e1, e2] at hne; exact hne

/-- C20 (fill and verify round trip): started with equal counters, for every
list of buffers and sizes, verifying in the same order and with the same sizes
the buffers that successive `format_buf` calls filled makes every `verify_buf`
call return 0, however often the 8-bit counters wrap, and leaves the two
counters equal again.  `verify_buf` returns `-1` exactly when one of the `size`
bytes differs from the counter value expected at its place, modulo 256, and 0
otherwise. -/
theorem C20_fill_verify_round_trip (bufs : List ((Nat → Nat) × Int)) (data : Nat)
    (total_bytes : Int) :
    (verify_all (format_all bufs data).1 data total_bytes).1 = bufs.map (fun _ => 0) ∧
    (verify_all (format_all bufs data).1 data total_bytes).2.1 = (format_all bufs data).2 ∧
    (∀ (array : Nat → Nat) (size : Int) (d : Nat) (t : Int), d < 256 →
      ((verify_buf array size d t).1 = -1 ↔
        ∃ j, j < size.toNat ∧ array j ≠ (d + j) % 256) ∧
      ((verify_buf array size d t).1 = 0 ∨ (verify_buf array size d t).1 = -1)) := by
  refine ⟨(verify_all_format_all bufs data total_bytes).1,
    (verify_all_format_all bufs data total_bytes).2, ?_⟩
  intro array size d t hd
  have h := verify_loop_fails_iff size.toNat 0 array d t hd
  simpa [verify_buf] using h

/-- C20 at concrete inputs: with both counters at 254, buffers of 3 and 4 bytes
are filled across the wrap of the counter and both verify; a buffer of zeros
fails verification against the counter 254. -/
theorem C20_fill_verify_round_trip_witness :
    (verify_all (format_all [(fun _ => 0, 3), (fun _ => 7, 4)] 254).1 254 0).1 = [0, 0] ∧
    (verify_buf (fun _ => 0) 3 254 0).1 = -1 :=
  ⟨(C20_fill_verify_round_trip [(fun _ => 0, 3), (fun _ => 7, 4)] 254 0).1,
   ((C20_fill_verify_round_trip [] 0 0).2.2 (fun _ => 0) 3 254 0 (by decide)).1.2
      ⟨0, by decide, by decide⟩⟩

/-- A decimal digit character is not the NUL character and denotes its digit. -/
theorem digitChar_spec (d : Nat) (h : d < 10) :
    (Nat.digitChar d != Char.ofNat 0) = true ∧ (Nat.digitChar d).toNat - 48 = d := by
  interval_cases d <;> exact ⟨by decide, by decide⟩

/-- No character of a decimal digit string is the NUL character. -/
theorem decimal_digits_clean (fuel n : Nat) :
    ∀ c ∈ decimal_digits fuel n, (c != Char.ofNat 0) = true := by
  induction fuel generalizing n with
  | zero => intro c hc; simp [decimal_digits] at hc
  | succ k ih =>
    intro c hc
    unfold decimal_digits at hc
    by_cases h : n < 10
    · rw [if_pos h, List.mem_singleton] at hc
      rw [hc]; exact (digitChar_spec n h).1
    · rw [if_neg h, List.mem_append, List.mem_singleton] at hc
      rcases hc with hc | hc
      · exact ih _ c hc
      · rw [hc]; exact (digitChar_spec (n % 10) (Nat.mod_lt _ (by norm_num))).1

/-- The digit string of `n` denotes `n`, given enough fuel. -/
theorem decimal_value_digits (fuel n : Nat) (h : n < 10 ^ fuel) :
    decimal_value (decimal_digits fuel n) = n := by
  induction fuel generalizing n with
  | zero =>
    have : n = 0 := by simpa using h
    subst this; rfl
  | succ k ih =>
    unfold decimal_digits
    by_cases hn : n < 10
    · rw [if_pos hn]
      simp [decimal_value, (digitChar_spec n hn).2]
    · rw [if_neg hn]
      have hk : n / 10 < 10 ^ k := by
        rw [Nat.div_lt_iff_lt_mul (by norm_num)]
        rw [pow_succ] at h; exact h
      have := ih (n / 10) hk
      unfold decimal_value at this ⊢
      rw [List.foldl_append, this]
      simp only [List.foldl_cons, List.foldl_nil,
        (digitChar_spec (n % 10) (Nat.mod_lt _ (by norm_num))).2]
      omega

/-- The conversion `%lld` of a natural number is its digit string. -/
theorem lld_nat (n : Nat) : lld (n : Int) = decimal_digits (n + 1) n := by
  unfold lld
  rw [if_neg (by omega)]
  simp

/-- The conversion `%lld` of a natural number denotes that number. -/
theorem decimal_value_lld (n : Nat) : decimal_value (lld (n : Int)) = n := by
  rw [lld_nat]
  exact decimal_value_digits (n + 1) n
    (lt_trans (Nat.lt_pow_self (by norm_num : 1 < 10) n)
      (Nat.pow_lt_pow_right (by norm_num) (Nat.lt_succ_self n)))

/-- The conversion `%lld` of a value from 0 to 9 is one digit character. -/
theorem lld_digit (d : Nat) (h : d < 10) : lld (d : Int) = [Nat.digitChar d] := by
  rw [lld_nat]
  unfold decimal_digits
  rw [if_pos h]

/-- The C string left by `snprintf` in a buffer that is large enough, for a
text without NUL followed by nothing or by one NUL. -/
theorem snprintf_clean (str : String) (ssize : Nat) (l tail : List Char)
    (hl : ∀ c ∈ l, (c != Char.ofNat 0) = true) (ht : tail = [] ∨ tail = [Char.ofNat 0])
    (hs : l.length < ssize) :
    snprintf str ssize (l ++ tail) = String.mk l := by
  unfold snprintf
  rw [if_neg (by omega)]
  congr 1
  rw [List.take_append_eq_append_take, List.take_of_length_le (by omega)]
  have hw : List.takeWhile (fun c => c != Char.ofNat 0) l = l :=
    List.takeWhile_eq_self_iff.mpr hl
  rcases ht with ht | ht
  · subst ht
    simp [hw]
  · subst ht
    rw [List.takeWhile_append_of_pos hl]
    cases hk : ssize - 1 - l.length with
    | zero => simp
    | succ m => simp [List.takeWhile]

/-- The digit after the point is at most 9. -/
theorem tenth_lt (n B : Nat) (hB : 0 < B) : n % B * 10 / B < 10 := by
  rw [Nat.div_lt_iff_lt_mul hB]
  have := Nat.mod_lt n hB
  omega

/-- What `size_str` writes once the unit `B` and the magnitude character `m`
are chosen, for a size `n ≥ 0` and a buffer that is large enough. -/
theorem size_str_body (str : String) (ssize n B : Nat) (hB : 0 < B) (m : Char)
    (suffix : List Char)
    (hm : (suffix = [] ∧ m = Char.ofNat 0) ∨ (suffix = [m] ∧ (m != Char.ofNat 0) = true))
    (hs : (lld (n / B : Nat) ++
        (if n / B < 10 ∧ n % B * 10 / B ≠ 0 then ['.', Nat.digitChar (n % B * 10 / B)] else [])
        ++ suffix).length < ssize) :
    (if (if (n : Int).tdiv B < 10 then (((n : Int).tmod B) * 10).tdiv B else 0) ≠ 0 then
        snprintf str ssize
          (lld ((n : Int).tdiv B) ++ ['.'] ++
            lld (if (n : Int).tdiv B < 10 then (((n : Int).tmod B) * 10).tdiv B else 0) ++ [m])
      else snprintf str ssize (lld ((n : Int).tdiv B) ++ [m]))
      = String.mk (lld (n / B : Nat) ++
        (if n / B < 10 ∧ n % B * 10 / B ≠ 0 then ['.', Nat.digitChar (n % B * 10 / B)] else [])
        ++ suffix) := by
  have hq : (n : Int).tdiv B = ((n / B : Nat) : Int) := (Int.ofNat_tdiv n B).symm
  have hr : (((n : Int).tmod B) * 10).tdiv B = ((n % B * 10 / B : Nat) : Int) := by
    rw [← Int.ofNat_tmod]
    have : ((n % B : Nat) : Int) * 10 = ((n % B * 10 : Nat) : Int) := by push_cast; rfl
    rw [this, ← Int.ofNat_tdiv]
  have hd := tenth_lt n B hB
  have hclean := decimal_digits_clean (n / B + 1) (n / B)
  rw [hq, hr]
  by_cases h10 : n / B < 10
  · have h10' : ((n / B : Nat) : Int) < 10 := by exact_mod_cast h10
    rw [if_pos h10']
    by_cases hd0 : n % B * 10 / B = 0
    · rw [hd0] at hs ⊢
      simp only [Nat.cast_zero, ne_eq, not_true_eq_false, if_false, and_false, List.append_nil]
        at hs ⊢
      rcases hm with ⟨h1, h2⟩ | ⟨h1, h2⟩
      · subst h1 h2
        rw [List.append_nil] at hs ⊢
        exact snprintf_clean str ssize _ _ (by rw [lld_nat]; exact hclean) (Or.inr rfl) hs
      · subst h1
        have := snprintf_clean str ssize (lld ((n / B : Nat) : Int) ++ [m]) []
          (by
            intro c hc
            rw [List.mem_append, List.mem_singleton] at hc
            rcases hc with hc | hc
            · rw [lld_nat] at hc; exact hclean c hc
            · rw [hc]; exact h2)
          (Or.inl rfl) hs
        rw [List.append_nil] at this
        exact this
    · have hne : ((n % B * 10 / B : Nat) : Int) ≠ 0 := by exact_mod_cast hd0
      rw [if_pos hne, lld_digit _ hd]
      rw [if_pos ⟨h10, hd0⟩] at hs ⊢
      have hcl : ∀ c ∈ lld ((n / B : Nat) : Int) ++ ['.', Nat.digitChar (n % B * 10 / B)],
          (c != Char.ofNat 0) = true := by
        intro c hc
        rw [List.mem_append] at hc
        rcases hc with hc | hc
        · rw [lld_nat] at hc; exact hclean c hc
        · simp only [List.mem_cons, List.mem_singleton, List.not_mem_nil, or_false] at hc
          rcases hc with hc | hc
          · rw [hc]; decide
          · rw [hc]; exact (digitChar_spec _ hd).1
      rcases hm with ⟨h1, h2⟩ | ⟨h1, h2⟩
      · subst h1 h2
        rw [List.append_nil] at hs ⊢
        have := snprintf_clean str ssize _ [Char.ofNat 0] hcl (Or.inr rfl) hs
        simpa using this
      · subst h1
        have := snprintf_clean str ssize
          (lld ((n / B : Nat) : Int) ++ ['.', Nat.digitChar (n % B * 10 / B)] ++ [m]) []
          (by
            intro c hc
            rw [List.mem_append, List.mem_singleton] at hc
            rcases hc with hc | hc
            · exact hcl c hc
            · rw [hc]; exact h2)
          (Or.inl rfl) hs
        simpa using this
  · have h10' : ¬ ((n / B : Nat) : Int) < 10 := by exact_mod_cast h10
    rw [if_neg h10']
    have hf : ¬ (n / B < 10 ∧ n % B * 10 / B ≠ 0) := fun h => h10 h.1
    rw [if_neg hf] at hs ⊢
    simp only [ne_eq, not_true_eq_false, if_false, List.append_nil] at hs ⊢
    rcases hm with ⟨h1, h2⟩ | ⟨h1, h2⟩
    · subst h1 h2
      rw [List.append_nil] at hs ⊢
      exact snprintf_clean str ssize _ _ (by rw [lld_nat]; exact hclean) (Or.inr rfl) hs
    · subst h1
      have := snprintf_clean str ssize (lld ((n / B : Nat) : Int) ++ [m]) []
        (by
          intro c hc
          rw [List.mem_append, List.mem_singleton] at hc
          rcases hc with hc | hc
          · rw [lld_nat] at hc; exact hclean c hc
          · rw [hc]; exact h2)
        (Or.inl rfl) hs
      rw [List.append_nil] at this
      exact this

/-- The unit of a size, range by range. -/
theorem unit_of_cases (n : Nat) :
    (n < 2 ^ 10 ∧ unit_of n = 1) ∨ (2 ^ 10 ≤ n ∧ n < 2 ^ 20 ∧ unit_of n = 2 ^ 10) ∨
    (2 ^ 20 ≤ n ∧ n < 2 ^ 30 ∧ unit_of n = 2 ^ 20) ∨ (2 ^ 30 ≤ n ∧ unit_of n = 2 ^ 30) := by
  have e30 : (2 : Nat) ^ 30 = 1073741824 := by norm_num
  have e20 : (2 : Nat) ^ 20 = 1048576 := by norm_num
  have e10 : (2 : Nat) ^ 10 = 1024 := by norm_num
  rw [e30, e20, e10]
  by_cases h30 : 1073741824 ≤ n
  · right; right; right
    exact ⟨h30, by simp [unit_of, List.find?, h30]⟩
  · by_cases h20 : 1048576 ≤ n
    · right; right; left
      exact ⟨h20, not_le.mp h30, by simp [unit_of, List.find?, h30, h20]⟩
    · by_cases h10 : 1024 ≤ n
      · right; left
        exact ⟨h10, not_le.mp h20, by simp [unit_of, List.find?, h30, h20, h10]⟩
      · left
        exact ⟨not_le.mp h10, by simp [unit_of, List.find?, h30, h20, h10]⟩

/-- With a buffer that is large enough, `size_str` writes the text the
specification words. -/
theorem size_str_eq_size_text (n : Nat) (str : String) (ssize : Nat)
    (hs : (size_text n).length < ssize) :
    size_str str ssize n = String.mk (size_text n) := by
  unfold size_text tenth_of at *
  rcases unit_of_cases n with ⟨h, hu⟩ | ⟨h1, h2, hu⟩ | ⟨h1, h2, hu⟩ | ⟨h1, hu⟩
  · rw [hu] at hs ⊢
    have a30 : ¬ ((n : Int) ≥ 2 ^ 30) := by
      have : n < 2 ^ 30 := lt_trans h (by norm_num)
      exact_mod_cast not_le.mpr this
    have a20 : ¬ ((n : Int) ≥ 2 ^ 20) := by
      have : n < 2 ^ 20 := lt_trans h (by norm_num)
      exact_mod_cast not_le.mpr this
    have a10 : ¬ ((n : Int) ≥ 2 ^ 10) := by exact_mod_cast not_le.mpr h
    have := size_str_body str ssize n 1 (by norm_num) (Char.ofNat 0) (suffix_of 1)
      (Or.inl ⟨by decide, rfl⟩) hs
    simp only [Nat.cast_one] at this
    simp only [size_str, if_neg a30, if_neg a20, if_neg a10]
    exact this
  · rw [hu] at hs ⊢
    have a30 : ¬ ((n : Int) ≥ 2 ^ 30) := by
      have : n < 2 ^ 30 := lt_trans h2 (by norm_num)
      exact_mod_cast not_le.mpr this
    have a20 : ¬ ((n : Int) ≥ 2 ^ 20) := by exact_mod_cast not_le.mpr h2
    have a10 : (n : Int) ≥ 2 ^ 10 := by exact_mod_cast h1
    have := size_str_body str ssize n (2 ^ 10) (by norm_num) 'k' (suffix_of (2 ^ 10))
      (Or.inr ⟨by decide, by decide⟩) hs
    simp only [Nat.cast_pow, Nat.cast_ofNat] at this
    simp only [size_str, if_neg a30, if_neg a20, if_pos a10]
    exact this
  · rw [hu] at hs ⊢
    have a30 : ¬ ((n : Int) ≥ 2 ^ 30) := by exact_mod_cast not_le.mpr h2
    have a20 : (n : Int) ≥ 2 ^ 20 := by exact_mod_cast h1
    have := size_str_body str ssize n (2 ^ 20) (by norm_num) 'm' (suffix_of (2 ^ 20))
      (Or.inr ⟨by decide, by decide⟩) hs
    simp only [Nat.cast_pow, Nat.cast_ofNat] at this
    simp only [size_str, if_neg a30, if_pos a20]
    exact this
  · rw [hu] at hs ⊢
    have a30 : (n : Int) ≥ 2 ^ 30 := by exact_mod_cast h1
    have := size_str_body str ssize n (2 ^ 30) (by norm_num) 'g' (suffix_of (2 ^ 30))
      (Or.inr ⟨by decide, by decide⟩) hs
    simp only [Nat.cast_pow, Nat.cast_ofNat] at this
    simp only [size_str, if_pos a30]
    exact this

/-- C21 (the format of `size_str`): for every size `n ≥ 0`, the unit is one of
1, `2 ^ 10`, `2 ^ 20`, `2 ^ 30`, the largest of them that does not exceed the
size (1 for a size below 1024), with the suffix none, `k`, `m`, `g`.  With a
buffer large enough the string written is the decimal of `n div unit`, then a
point and the one digit `d = ((n mod unit) * 10) div unit` when `n div unit < 10`
and `d ≠ 0`, then the suffix.  The digit is at most 9, the digits written for
`n div unit` denote that number, and the value shown does not exceed the size.
The sizes 1000 and 5325 give "1000" and "5.2k". -/
theorem C21_size_str_format (n : Nat) (str : String) (ssize : Nat) :
    unit_of n ∈ [1, 2 ^ 10, 2 ^ 20, 2 ^ 30] ∧
    (∀ b ∈ [1, 2 ^ 10, 2 ^ 20, 2 ^ 30], b ≤ n → b ≤ unit_of n) ∧
    (unit_of n ≤ n ∨ (n < 1024 ∧ unit_of n = 1)) ∧
    tenth_of n ≤ 9 ∧
    ((size_text n).length < ssize → size_str str ssize n = String.mk (size_text n)) ∧
    decimal_value (lld (n / unit_of n : Nat)) = n / unit_of n ∧
    (10 * (n / unit_of n) + (if n / unit_of n < 10 then tenth_of n else 0)) * unit_of n
      ≤ 10 * n ∧
    size_str "" 16 1000 = "1000" ∧ size_str "" 16 5325 = "5.2k" := by
  have hpos : 0 < unit_of n := by
    rcases unit_of_cases n with ⟨-, hu⟩ | ⟨-, -, hu⟩ | ⟨-, -, hu⟩ | ⟨-, hu⟩ <;> rw [hu] <;>
      norm_num
  refine ⟨?_, ?_, ?_, ?_, size_str_eq_size_text n str ssize, decimal_value_lld _, ?_,
    by decide, by decide⟩
  · rcases unit_of_cases n with ⟨-, hu⟩ | ⟨-, -, hu⟩ | ⟨-, -, hu⟩ | ⟨-, hu⟩ <;> rw [hu] <;> simp
  · intro b hb hbn
    simp only [List.mem_cons, List.mem_singleton, List.not_mem_nil, or_false] at hb
    rcases unit_of_cases n with ⟨h, hu⟩ | ⟨h1, h2, hu⟩ | ⟨h1, h2, hu⟩ | ⟨h1, hu⟩ <;> rw [hu] <;>
      rcases hb with rfl | rfl | rfl | rfl <;> norm_num at * <;> omega
  · rcases unit_of_cases n with ⟨h, hu⟩ | ⟨h1, h2, hu⟩ | ⟨h1, h2, hu⟩ | ⟨h1, hu⟩
    · right; exact ⟨by norm_num at h; exact h, hu⟩
    · left; rw [hu]; exact h1
    · left; rw [hu]; exact h1
    · left; rw [hu]; exact h1
  · exact Nat.lt_succ_iff.mp (tenth_lt n (unit_of n) hpos)
  · have h1 := Nat.div_add_mod n (unit_of n)
    have h2 := Nat.div_mul_le_self (n % unit_of n * 10) (unit_of n)
    have h3 : tenth_of n * unit_of n ≤ n % unit_of n * 10 := h2
    by_cases hq : n / unit_of n < 10
    · rw [if_pos hq]; nlinarith
    · rw [if_neg hq]; nlinarith

/-- C21 at the inputs of the doc comment and at the edges of the units: 5325
gives "5.2k", 1000 gives "1000", 1023 and 1024 give "1023" and "1k", and
`10 * 2 ^ 20` gives "10m" without a fraction. -/
theorem C21_size_str_format_witness :
    size_str "" 16 5325 = "5.2k" ∧ size_str "" 16 1000 = "1000" ∧
    size_str "" 16 1023 = "1023" ∧ size_str "" 16 1024 = "1k" ∧
    size_str "" 16 10485760 = "10m" :=
  ⟨(C21_size_str_format 5325 "" 16).2.2.2.2.1 (by decide),
   (C21_size_str_format 1000 "" 16).2.2.2.2.1 (by decide),
   (C21_size_str_format 1023 "" 16).2.2.2.2.1 (by decide),
   (C21_size_str_format 1024 "" 16).2.2.2.2.1 (by decide),
   (C21_size_str_format 10485760 "" 16).2.2.2.2.1 (by decide)⟩

/-- `get_rdma_addr` hands the caller's hints back as they were. -/
theorem get_rdma_addr_hints (R : Resolver σ) (src dst port : Option String)
    (hints : rdma_addrinfo) (rai : Nat) (s : AddrRun σ) :
    (get_rdma_addr R src dst port hints rai s).hints = hints := by
  by_cases h : hints.ai_flags &&& R.RAI_PASSIVE = 0
  · cases src with
    | none => rw [get_rdma_addr_no_source R dst port hints rai s h]
    | some a =>
      by_cases h1 : (first_phase R a hints s).1 = 0
      · rw [get_rdma_addr_two_phase R a dst port hints rai s h h1]
      · rw [get_rdma_addr_first_failed R a dst port hints rai s h h1]
  · rw [get_rdma_addr_passive R src dst port hints rai s h]

/-- C22 (the hints are preserved): on every path `get_rdma_addr` leaves the
caller's hints structure as it was; the flag set for the first phase goes into
a private copy.  In the active case with a source, for 32-bit flag words, the
hints passed to the second resolution are the caller's hints with the source
address and source length of the first result, every other field unchanged:
their flags equal the caller's flags, because the passive bit set for the first
phase is cleared again and was clear in the caller's flags. -/
theorem C22_hints_preserved (R : Resolver σ) (src dst port : Option String) (a : String)
    (hints : rdma_addrinfo) (rai : Nat) (s : AddrRun σ) :
    (get_rdma_addr R src dst port hints rai s).hints = hints ∧
    (hints.ai_flags &&& R.RAI_PASSIVE = 0 → hints.ai_flags < 2 ^ 32 →
      R.RAI_PASSIVE < 2 ^ 32 →
      (pinned_hints R a hints s).ai_flags = hints.ai_flags ∧
      pinned_hints R a hints s
        = { hints with
            ai_src_addr :=
              (R.load (first_phase R a hints s).2.1 (first_phase R a hints s).2.2).ai_src_addr
            ai_src_len :=
              (R.load (first_phase R a hints s).2.1 (first_phase R a hints s).2.2).ai_src_len } ∧
      ((first_phase R a hints s).1 = 0 →
        addr_calls s (get_rdma_addr R (some a) dst port hints rai s).st
          = [AddrEvent.getaddrinfo (some a) none
              { hints with ai_flags := hints.ai_flags ||| R.RAI_PASSIVE } 0
              (first_phase R a hints s).2.1,
            AddrEvent.getaddrinfo dst port
              { hints with
                ai_src_addr :=
                  (R.load (first_phase R a hints s).2.1
                    (first_phase R a hints s).2.2).ai_src_addr
                ai_src_len :=
                  (R.load (first_phase R a hints s).2.1
                    (first_phase R a hints s).2.2).ai_src_len }
              (second_phase R a dst port hints rai s).1
              (second_phase R a dst port hints rai s).2.1,
            AddrEvent.freeaddrinfo (first_phase R a hints s).2.1])) := by
  refine ⟨get_rdma_addr_hints R src dst port hints rai s, ?_⟩
  intro h hf hP
  have hflags : (pinned_hints R a hints s).ai_flags = hints.ai_flags :=
    set_then_clear_passive hints.ai_flags R.RAI_PASSIVE hf hP h
  have hpin : pinned_hints R a hints s
      = { hints with
          ai_src_addr :=
            (R.load (first_phase R a hints s).2.1 (first_phase R a hints s).2.2).ai_src_addr
          ai_src_len :=
            (R.load (first_phase R a hints s).2.1 (first_phase R a hints s).2.2).ai_src_len } := by
    have e : pinned_hints R a hints s
        = { hints with
            ai_src_addr :=
              (R.load (first_phase R a hints s).2.1 (first_phase R a hints s).2.2).ai_src_addr
            ai_src_len :=
              (R.load (first_phase R a hints s).2.1 (first_phase R a hints s).2.2).ai_src_len
            ai_flags := (pinned_hints R a hints s).ai_flags } := rfl
    rw [e, hflags]
  refine ⟨hflags, hpin, ?_⟩
  intro h1
  rw [addr_calls_append _ _ _ (by rw [get_rdma_addr_two_phase R a dst port hints rai s h h1]),
    hpin]
  rfl

/-- C22 at the input of Scenario D: the caller's active hints come back
unchanged, and the second resolution gets them with the source address
10.0.0.5 and its length 16 filled in and the flags 0 as the caller gave
them. -/
theorem C22_hints_preserved_witness :
    (get_rdma_addr table (some "10.0.0.5") (some "10.0.0.9") (some "7471") active_hints 0
      table_start).hints = active_hints ∧
    (pinned_hints table "10.0.0.5" active_hints table_start).ai_flags = 0 ∧
    pinned_hints table "10.0.0.5" active_hints table_start
      = ⟨0, 0, 0, 262, 16, 0, 0x0A000005, 0⟩ :=
  ⟨(C22_hints_preserved table (some "10.0.0.5") (some "10.0.0.9") (some "7471") "10.0.0.5"
      active_hints 0 table_start).1,
   ((C22_hints_preserved table (some "10.0.0.5") (some "10.0.0.9") (some "7471") "10.0.0.5"
      active_hints 0 table_start).2 (by decide) (by decide) (by decide)).1,
   ((C22_hints_preserved table (some "10.0.0.5") (some "10.0.0.9") (some "7471") "10.0.0.5"
      active_hints 0 table_start).2 (by decide) (by decide) (by decide)).2.1⟩

end Rdma
